import Mathlib

/-!
Shallow embedding of the chatbot backend (Express server `getAnswerFromData` /
`getImprovedMockResponse` / `getHuggingFaceResponse` and `scraper.js`) together
with theorems settling the specification claims.

Strings are modelled with Lean `String` (a wrapper around `List Char`); the
JavaScript string operations used by the code (`toLowerCase`, `trim`,
`includes`, `startsWith`, `split`, anchored/unanchored regular expressions)
are implemented as structurally recursive functions over `List Char` so that
every definition evaluates by kernel reduction.  JavaScript `toLowerCase` /
`toUpperCase` are modelled by the ASCII `Char.toLower` / `Char.toUpper`
(the corpus and all queries are ASCII), and JavaScript number arithmetic in
the Q&A scorer (a single exact division scaled by 50) is modelled by `ℚ`.
-/

set_option maxRecDepth 40000

namespace Chatbot

/-- Whitespace class of the JavaScript regex `\s` restricted to the ASCII
whitespace characters that can actually occur in the data handled here. -/
def jsWs (c : Char) : Bool :=
  c = ' ' || c = '\t' || c = '\n' || c = '\r' || c = '\x0b' || c = '\x0c'

/-- Model of JavaScript `toLowerCase` (ASCII). -/
def lowerStr (s : String) : String :=
  String.mk (s.data.map Char.toLower)

/-- Model of JavaScript `toUpperCase` (ASCII). -/
def upperStr (s : String) : String :=
  String.mk (s.data.map Char.toUpper)

/-- Drop trailing whitespace from a character list. -/
def dropTrailWs (l : List Char) : List Char :=
  (l.reverse.dropWhile jsWs).reverse

/-- Model of JavaScript `String.prototype.trim`. -/
def jsTrim (s : String) : String :=
  String.mk (dropTrailWs (s.data.dropWhile jsWs))

/-- Boolean list-prefix test (model of JavaScript `startsWith` on the data). -/
def prefixOfB : List Char → List Char → Bool
  | [], _ => true
  | _ :: _, [] => false
  | a :: as, b :: bs => a == b && prefixOfB as bs

/-- Boolean substring test: does `pat` occur contiguously inside `l`?
Model of JavaScript `String.prototype.includes`. -/
def listContains : List Char → List Char → Bool
  | l, pat =>
    match l with
    | [] => pat.isEmpty
    | _ :: rest => prefixOfB pat l || listContains rest pat

/-- String-level substring test (JavaScript `includes`). -/
def strContains (s pat : String) : Bool :=
  listContains s.data pat.data

/-- Case-insensitive substring test used for the `/.../i` regex literals:
the pattern is given already lowercased. -/
def strContainsCI (s patLower : String) : Bool :=
  strContains (lowerStr s) patLower

/-- String-level starts-with test (JavaScript `startsWith` and anchored `^`
regex literals). -/
def strStarts (s pat : String) : Bool :=
  prefixOfB pat.data s.data

/-- Remainder of `l` after the first occurrence of `pat`, if any. -/
def afterFirst (pat : List Char) : List Char → Option (List Char)
  | [] => if pat.isEmpty then some [] else none
  | c :: rest =>
    if prefixOfB pat (c :: rest) then some ((c :: rest).drop pat.length)
    else afterFirst pat rest

/-- Model of an unanchored JavaScript regex `a.*b`: some occurrence of `a`
is followed (at or after its end) by an occurrence of `b`.  This holds iff
the text after the first occurrence of `a` contains `b`. -/
def seqContains (s a b : String) : Bool :=
  match afterFirst a.data s.data with
  | some r => listContains r b.data
  | none => false

/-- Cons a character onto the first piece of a split result. -/
def consHead (c : Char) : List (List Char) → List (List Char)
  | [] => [[c]]
  | h :: t => (c :: h) :: t

/-- Model of JavaScript `split` on a single-character-class regex with a `+`
(runs of delimiter characters are collapsed into one boundary; leading or
trailing runs produce empty pieces, exactly as in JavaScript).  The `skip`
flag records that we are inside a delimiter run. -/
def splitDelims (delim : Char → Bool) : Bool → List Char → List (List Char)
  | _, [] => [[]]
  | skip, c :: rest =>
    if delim c then
      if skip then splitDelims delim true rest
      else [] :: splitDelims delim true rest
    else consHead c (splitDelims delim false rest)

/-- Model of JavaScript `split('\n')` (single newline, empties kept). -/
def splitNlL : List Char → List (List Char)
  | [] => [[]]
  | c :: rest =>
    if c = '\n' then [] :: splitNlL rest
    else consHead c (splitNlL rest)

/-- Split a string into its lines, as `split('\n')` does. -/
def splitNl (s : String) : List String :=
  (splitNlL s.data).map String.mk

/-- Model of JavaScript `split(/\n\n+/)` (paragraph split on runs of two or
more newlines; a single newline stays inside its piece). -/
def splitParasL : Bool → List Char → List (List Char)
  | _, [] => [[]]
  | skip, c :: rest =>
    if c = '\n' then
      if skip then splitParasL true rest
      else
        match rest with
        | c2 :: rest2 =>
          if c2 = '\n' then [] :: splitParasL true rest2
          else consHead '\n' (splitParasL false (c2 :: rest2))
        | [] => [['\n']]
    else consHead c (splitParasL false rest)

/-- Paragraphs of a string (JavaScript `split(/\n\n+/)`). -/
def splitParas (s : String) : List String :=
  (splitParasL false s.data).map String.mk

/-- Sentence delimiters of the regex class `[.!?]`. -/
def sentDelim (c : Char) : Bool :=
  c = '.' || c = '!' || c = '?'

/-- Model of JavaScript `split(/[.!?]+/)`. -/
def splitSentences (s : String) : List String :=
  (splitDelims sentDelim false s.data).map String.mk

/-- Model of JavaScript `split(/\s+/)` followed by any length filter: runs of
whitespace separate the pieces (a leading run contributes an empty piece, but
every use in the code filters by a positive length immediately afterwards, so
empty pieces never survive). -/
def splitWsPieces (s : String) : List String :=
  (splitDelims jsWs false s.data).map String.mk

/-- Join a list of strings with a separator (JavaScript `Array.join`). -/
def joinWith (sep : String) : List String → String
  | [] => ""
  | [x] => x
  | x :: xs => x ++ sep ++ joinWith sep xs

/-! ### Product matcher stage of `getAnswerFromData` (server, lines 203-320) -/

/-- Alias table `productKeywords` of `getAnswerFromData`, in object insertion
order (the order `Object.entries` iterates). -/
def productKeywords : List (String × List String) :=
  [("tablet", ["tablet", "tab"]),
   ("smartphone", ["smartphone", "phone", "galaxy"]),
   ("watch", ["watch", "gear"]),
   ("buds", ["buds", "headphone", "earphone"]),
   ("charger", ["charger"]),
   ("battery", ["battery"]),
   ("s pen", ["s pen", "spen", "pen"]),
   ("strap", ["strap", "band"]),
   ("ring", ["ring", "galaxy ring"]),
   ("cooker hood", ["cooker hood", "hood", "cooker"]),
   ("vacuum cleaners", ["vacuum cleaners", "vacuum cleaner", "vacuum", "robotic vacuum"]),
   ("robotic vacuum cleaners", ["robotic vacuum cleaners", "robotic vacuum"]),
   ("monitor", ["monitor", "monitors", "display", "monitor for consumers"]),
   ("large format display", ["large format display", "large format"]),
   ("set back box", ["set back box", "sbb", "back box"]),
   ("oled monitor", ["oled monitor", "oled monitor for consumers", "oled"])]

/-- First product whose keyword list has a keyword contained in the
(lowercased) message; `matchedProduct` of the code. -/
def matchProduct (message : String) : Option String :=
  (productKeywords.find? (fun pk => pk.2.any (fun kw => strContains message kw))).map Prod.fst

/-- Test for the regex `/^[A-Z\s]+:$/`: one or more uppercase letters or
whitespace characters followed by a final colon. -/
def isCapsHeaderL (l : List Char) : Bool :=
  l.getLast? == some ':' && !l.dropLast.isEmpty
    && l.dropLast.all (fun c => c.isUpper || jsWs c)

/-- String form of the all-caps-header test. -/
def isCapsHeader (s : String) : Bool :=
  isCapsHeaderL s.data

/-- Model of JavaScript `replace(':', '')`: remove the first colon only. -/
def removeFirstColonL : List Char → List Char
  | [] => []
  | c :: rest => if c = ':' then rest else c :: removeFirstColonL rest

/-- Remove the first colon of a string. -/
def removeFirstColon (s : String) : String :=
  String.mk (removeFirstColonL s.data)

/-- Loosened alias check of the product-section header (the big disjunction at
server lines 248-264); `matched` is the matched product, `productName` the
lowercased header with its first colon removed. -/
def sectionNameMatch (matched productName : String) : Bool :=
  strContains productName matched
  || (matched == "tablet" && productName == "tablet")
  || (matched == "smartphone" && (strContains productName "smartphone" || strContains productName "phone"))
  || (matched == "watch" && (strContains productName "watch" || strContains productName "gear"))
  || (matched == "buds" && (strContains productName "buds" || strContains productName "headphone"))
  || (matched == "charger" && strContains productName "charger")
  || (matched == "battery" && strContains productName "battery")
  || (matched == "s pen" && strContains productName "pen")
  || (matched == "strap" && strContains productName "strap")
  || (matched == "ring" && strContains productName "ring")
  || (matched == "cooker hood" && (strContains productName "cooker hood" || strContains productName "hood"))
  || (matched == "vacuum cleaners" && (strContains productName "vacuum" || strContains productName "cleaner"))
  || (matched == "robotic vacuum cleaners" && (strContains productName "robotic vacuum" || strContains productName "robotic"))
  || (matched == "monitor" && (strContains productName "monitor" || strContains productName "display"))
  || (matched == "large format display" && (strContains productName "large format" || strContains productName "format display"))
  || (matched == "set back box" && (strContains productName "set back box" || strContains productName "sbb" || strContains productName "back box"))
  || (matched == "oled monitor" && (strContains productName "oled monitor" || strContains productName "oled"))

/-- Does the scan enter (or re-enter) the product section at this raw line?
Mirrors the header branch at server lines 246-264. -/
def enterCond (matched : String) (raw : String) : Bool :=
  let line := jsTrim raw
  isCapsHeader line && !(strContains line "===")
    && sectionNameMatch matched (lowerStr (removeFirstColon line))

/-- Attempt to match the regex `Warranty period:\s*(\d+)\s*Months?` (already
lowercased) at the start of `l`, returning the captured digit group. -/
def periodMatchAt (l : List Char) : Option (List Char) :=
  if prefixOfB "warranty period:".data l then
    let r1 := (l.drop 16).dropWhile jsWs
    let ds := r1.takeWhile Char.isDigit
    if ds.isEmpty then none
    else
      let r2 := (r1.dropWhile Char.isDigit).dropWhile jsWs
      if prefixOfB "month".data r2 then some ds else none
  else none

/-- Search a lowercased line for the warranty-period pattern, leftmost match
first (the regex engine's scan). -/
def periodSearch : List Char → Option (List Char)
  | [] => none
  | c :: rest =>
    match periodMatchAt (c :: rest) with
    | some ds => some ds
    | none => periodSearch rest

/-- Captured digits of `line.match(/Warranty period:\s*(\d+)\s*Months?/i)`. -/
def periodDigits (line : String) : Option String :=
  (periodSearch (lowerStr line).data).map String.mk

/-- Model of the `replace` call that deletes the label `- Warranty service
offered:` (case-insensitively) together with the whitespace run after it,
first occurrence only.  `labelLower` is the lowercased label. -/
def stripLabelCIL (labelLower : List Char) : List Char → List Char
  | [] => []
  | c :: rest =>
    if prefixOfB labelLower ((c :: rest).map Char.toLower) then
      ((c :: rest).drop labelLower.length).dropWhile jsWs
    else c :: stripLabelCIL labelLower rest

/-- String form of the case-insensitive label removal. -/
def stripLabelCI (labelLower : String) (line : String) : String :=
  String.mk (stripLabelCIL labelLower.data line.data)

/-- Test for the regex `/^[A-Z]/`: the first character is an ASCII uppercase
letter. -/
def startsUpper (s : String) : Bool :=
  match s.data with
  | [] => false
  | c :: _ => c.isUpper

/-- Look-ahead collection of repair-service bullet lines (server lines
290-298): up to 9 following lines (`j < i + 10`), pushing `- `-prefixed
trimmed lines with the bullet stripped, stopping at an uppercase-initial or
empty trimmed line, skipping anything else. -/
def collectRepairs : Nat → List String → List String
  | 0, _ => []
  | _, [] => []
  | Nat.succ fuel, raw :: rest =>
    let nl := jsTrim raw
    if strStarts nl "- " then String.mk (nl.data.drop 2) :: collectRepairs fuel rest
    else if startsUpper nl || nl == "" then []
    else collectRepairs fuel rest

/-- State of the product-section scan (`inProductSection`, `productSection`,
`warrantyPeriod`, `warrantyService`, `repairServices`). -/
structure PSt where
  inSection : Bool
  sectionHdr : String
  period : Option String
  service : Option String
  repairs : List String
deriving DecidableEq, Repr

/-- Initial state of the product-section scan. -/
def pInit : PSt := ⟨false, "", none, none, []⟩

/-- Body-line update of the product-section scan (the three extraction checks
at server lines 274-300); `rest` is the tail of the line list, used by the
repair-services look-ahead. -/
def bodyStep (st : PSt) (raw : String) (rest : List String) : PSt :=
  let line := jsTrim raw
  let st1 :=
    if strContainsCI line "- warranty period:" then
      match periodDigits line with
      | some d => { st with period := some (d ++ " Months") }
      | none => st
    else st
  let st2 :=
    if strContainsCI line "- warranty service offered:" then
      { st1 with service := some (jsTrim (stripLabelCI "- warranty service offered:" line)) }
    else st1
  if strContainsCI line "- repair services available:" then
    { st2 with repairs := collectRepairs 9 rest }
  else st2

/-- Full scan loop of the product matcher (server lines 241-307), including
the early `break`s. -/
def productScan (matched : String) : PSt → List String → PSt
  | st, [] => st
  | st, raw :: rest =>
    let line := jsTrim raw
    if isCapsHeader line && !(strContains line "===") then
      if sectionNameMatch matched (lowerStr (removeFirstColon line)) then
        productScan matched { st with inSection := true, sectionHdr := line } rest
      else if st.inSection && isCapsHeader line then st
      else productScan matched st rest
    else if st.inSection then
      let st3 := bodyStep st raw rest
      if strStarts line "===" || (isCapsHeader line && !(strContains line st.sectionHdr)) then st3
      else productScan matched st3 rest
    else productScan matched st rest

/-- Reply text composed at server lines 310-319 from a found period, the
optional service sentence and the repair-services list.  The JavaScript guard
`if (warrantyService)` is falsy both on `null` and on an empty extracted
sentence, so an empty service sentence is omitted exactly like an absent
one. -/
def productResponseText (p : String) (svc : Option String) (reps : List String) : String :=
  "Warranty period: " ++ p
    ++ (match svc with
        | some s => if s = "" then "" else ". " ++ s
        | none => "")
    ++ (if reps.isEmpty then ""
        else ". Repair services available: " ++ joinWith ", " reps ++ ".")

/-- Response composition at server lines 310-319: the period first, then the
service sentence if found, then the joined repair-services list if nonempty. -/
def buildProductResponse (st : PSt) : Option String :=
  match st.period with
  | none => none
  | some p => some (productResponseText p st.service st.repairs)

/-- Pure fold of the product-section body over a line list: `post` is the
text after the body, visible to the repair-services look-ahead. -/
def bodyAccum : PSt → List String → List String → PSt
  | st, [], _ => st
  | st, raw :: body, post => bodyAccum (bodyStep st raw (body ++ post)) body post

/-- Fold computing the warranty period assignments of a run of body lines,
starting from a previous value: each line carrying the bulleted label
overwrites the value when its digits parse. -/
def periodFold : Option String → List String → Option String
  | acc, [] => acc
  | acc, raw :: rest =>
    let line := jsTrim raw
    periodFold
      (if strContainsCI line "- warranty period:" then
        match periodDigits line with
        | some d => some (d ++ " Months")
        | none => acc
      else acc) rest

/-- Warranty period extracted from a list of section body lines. -/
def periodOfLines (lines : List String) : Option String :=
  periodFold none lines

/-- Product matcher stage: returns a reply iff a product alias matched and a
warranty period was extracted from its section. -/
def productStage (message : String) (lines : List String) : Option String :=
  match matchProduct message with
  | some p => buildProductResponse (productScan p pInit lines)
  | none => none

/-! ### Q&A parsing and scoring stage (server, lines 322-412) -/

/-- Parsed question/answer pair. -/
structure QAPair where
  question : String
  answer : String
deriving DecidableEq, Repr

/-- Parser state of the Q&A harvesting loop (`inQA`, `currentQ`, `currentA`,
`qaPairs`). -/
structure QASt where
  inQA : Bool
  curQ : String
  curA : String
  pairs : List QAPair
deriving DecidableEq, Repr

/-- Strip an anchored `Q:` label and the whitespace after it (the
case-sensitive `replace` used while parsing). -/
def stripQUpper (s : String) : String :=
  if strStarts s "Q:" then String.mk ((s.data.drop 2).dropWhile jsWs) else s

/-- Strip an anchored lowercase `q:` label and the whitespace after it (the
`replace` used while scoring on the lowercased question). -/
def stripQLower (s : String) : String :=
  if strStarts s "q:" then String.mk ((s.data.drop 2).dropWhile jsWs) else s

/-- Strip an anchored `A:` label and the whitespace after it. -/
def stripALabel (s : String) : String :=
  if strStarts s "A:" then String.mk ((s.data.drop 2).dropWhile jsWs) else s

/-- One line of the Q&A harvesting loop (server lines 328-345). -/
def qaStep (st : QASt) (raw : String) : QASt :=
  let line := jsTrim raw
  if strStarts line "Q:" || strStarts line "QUESTIONS ABOUT" then
    let ps := if st.curQ ≠ "" ∧ st.curA ≠ "" then st.pairs ++ [⟨st.curQ, st.curA⟩] else st.pairs
    ⟨true, lowerStr (stripQUpper line), "", ps⟩
  else if st.inQA && strStarts line "A:" then
    { st with curA := stripALabel line }
  else if st.inQA && st.curA ≠ "" && line.length > 0 then
    { st with curA := st.curA ++ " " ++ line }
  else if st.inQA && line.length == 0 && st.curA ≠ "" then
    { st with inQA := false }
  else st

/-- Fold of the Q&A harvesting loop over the lines. -/
def qaFoldLines : QASt → List String → QASt
  | st, [] => st
  | st, l :: rest => qaFoldLines (qaStep st l) rest

/-- All Q&A pairs of a document, including the final flush (server lines
347-349). -/
def parseQAPairs (lines : List String) : List QAPair :=
  let st := qaFoldLines ⟨false, "", "", []⟩ lines
  if st.curQ ≠ "" ∧ st.curA ≠ "" then st.pairs ++ [⟨st.curQ, st.curA⟩] else st.pairs

/-- Stopword list of the scorer (server line 370). -/
def qaStopwords : List String :=
  ["how", "what", "when", "where", "why", "can", "do", "i", "my", "the", "a", "an"]

/-- Does a message word match a question word (exact equality, or mutual
containment for words longer than 4 characters)? -/
def wordMatches (qw mw : String) : Bool :=
  mw == qw || (qw.length > 4 && (strContains mw qw || strContains qw mw))

/-- Important words of a lowercased question: pieces of length above 2 that
are also of length above 3 and not stopwords (server lines 357 and 369-371). -/
def importantWordsOf (qLower : String) : List String :=
  ((splitWsPieces qLower).filter (fun w => w.length > 2)).filter
    (fun w => w.length > 3 && !(qaStopwords.contains w))

/-- Lowercased message words of length above 2 (server line 358). -/
def messageWordsOf (message : String) : List String :=
  ((splitWsPieces message).filter (fun w => w.length > 2)).map lowerStr

/-- Exact-phrase component of the score: 100 when the message and the
stripped question phrase contain one another either way (server lines
362-366). -/
def qaPhraseScore (message qLower : String) : ℚ :=
  if strContains message (jsTrim (stripQLower qLower))
      || strContains (jsTrim (stripQLower qLower)) message
  then 100 else 0

/-- Number of important question words found among the message words (server
lines 373-381). -/
def qaMatchingCount (message qLower : String) : Nat :=
  ((importantWordsOf qLower).filter
    (fun qw => (messageWordsOf message).any (wordMatches qw))).length

/-- Important-word-fraction component of the score (server lines 383-386). -/
def qaWordScore (message qLower : String) : ℚ :=
  if (importantWordsOf qLower).length > 0 then
    ((qaMatchingCount message qLower : ℚ) / ((importantWordsOf qLower).length : ℚ)) * 50
  else 0

/-- One fixed keyword-pair bonus (server lines 389-396). -/
def qaBonusTerm (message qLower kw : String) (amount : ℚ) : ℚ :=
  if strContains message kw && strContains qLower kw then amount else 0

/-- Sum of the eight fixed keyword-pair bonuses. -/
def qaBonus (message qLower : String) : ℚ :=
  qaBonusTerm message qLower "track" 20 + qaBonusTerm message qLower "cancel" 20
    + qaBonusTerm message qLower "latest" 20 + qaBonusTerm message qLower "order id" 30
    + qaBonusTerm message qLower "all order" 30 + qaBonusTerm message qLower "reorder" 20
    + qaBonusTerm message qLower "change" 20 + qaBonusTerm message qLower "wrong item" 30

/-- Too-generic penalty (server lines 399-401). -/
def qaPenalty (message qLower : String) : ℚ :=
  if strContains qLower "track" && !(strContains message "track")
      && !(strContains message "order")
  then 10 else 0

/-- Score of one Q&A pair against the lowercased message (server lines
355-401), computed in exact rational arithmetic. -/
def scoreQA (message : String) (qa : QAPair) : ℚ :=
  qaPhraseScore message (lowerStr qa.question) + qaWordScore message (lowerStr qa.question)
    + qaBonus message (lowerStr qa.question) - qaPenalty message (lowerStr qa.question)

/-- Best-match fold of the scorer (strictly greater score wins, so the first
pair attaining the maximum is kept; server lines 403-407). -/
def qaBestFold (message : String) : Option QAPair × ℚ → List QAPair → Option QAPair × ℚ
  | acc, [] => acc
  | (bm, bs), qa :: rest =>
    if scoreQA message qa > bs then qaBestFold message (some qa, scoreQA message qa) rest
    else qaBestFold message (bm, bs) rest

/-- Q&A scoring stage over an explicit pair list: the best pair's answer is
returned iff a best pair exists and its score exceeds 15. -/
def qaStagePairs (message : String) (pairs : List QAPair) : Option String :=
  match qaBestFold message (none, 0) pairs with
  | (some qa, bs) => if bs > 15 then some qa.answer else none
  | (none, _) => none

/-- Q&A scoring stage of `getAnswerFromData`. -/
def qaStage (message : String) (lines : List String) : Option String :=
  qaStagePairs message (parseQAPairs lines)

/-! ### Section fallback stage (server, lines 414-444) -/

/-- Message words used by the section and paragraph fallbacks: whitespace
pieces of the lowercased message of length greater than 3 (server line 416). -/
def msgWords3 (message : String) : List String :=
  (splitWsPieces message).filter (fun w => w.length > 3)

/-- Header test of the section fallback (server line 422), on the raw
untrimmed line: all-caps header or a line starting with `===`. -/
def isSecHeader (line : String) : Bool :=
  isCapsHeader line || strStarts line "==="

/-- Number of message words contained in the lowercased section text. -/
def countWordsIn (msgWords : List String) (sec : String) : Nat :=
  (msgWords.filter (fun w => strContains (lowerStr sec) w)).length

/-- State of the section fallback scan (`bestSection`, `bestMatchCount`,
`currentSection`). -/
structure SecSt where
  bestSection : String
  bestCount : Nat
  current : String
deriving DecidableEq, Repr

/-- One line of the section fallback scan (server lines 421-437): at a header
line the accumulated section is scored — but only while the best count is
still below 3 — and a new section starts; nonblank lines accumulate; blank
non-header lines are skipped. -/
def sectionStep (msgWords : List String) (st : SecSt) (line : String) : SecSt :=
  if isSecHeader line then
    let stUpd :=
      if st.current ≠ "" ∧ st.bestCount < 3 then
        let mc := countWordsIn msgWords st.current
        if st.bestCount < mc then { st with bestSection := st.current, bestCount := mc } else st
      else st
    { stUpd with current := line ++ "\n" }
  else if (jsTrim line).length > 0 then
    { st with current := st.current ++ line ++ "\n" }
  else st

/-- Fold of the section fallback scan over the lines. -/
def sectionFold (msgWords : List String) : SecSt → List String → SecSt
  | st, [] => st
  | st, l :: rest => sectionFold msgWords (sectionStep msgWords st l) rest

/-- Section fallback stage: if a best section with a positive count was
recorded, return its first three long sentences joined with `. ` and a final
period (server lines 440-444). -/
def sectionStage (message : String) (lines : List String) : Option String :=
  let stf := sectionFold (msgWords3 message) ⟨"", 0, ""⟩ lines
  if stf.bestSection ≠ "" ∧ stf.bestCount > 0 then
    let sentences := (splitSentences stf.bestSection).filter (fun s => (jsTrim s).length > 20)
    some (jsTrim (joinWith ". " (sentences.take 3)) ++ ".")
  else none

/-! ### Paragraph fallback and last resort (server, lines 446-476) -/

/-- Best-paragraph fold (strictly greater match count wins; server lines
451-460). -/
def paraBestFold (msgWords : List String) : String × Nat → List String → String × Nat
  | acc, [] => acc
  | (bp, bc), p :: rest =>
    let mc := (msgWords.filter (fun w => w.length > 3 && strContains (lowerStr p) w)).length
    if bc < mc then paraBestFold msgWords (p, mc) rest
    else paraBestFold msgWords (bp, bc) rest

/-- Paragraph fallback stage: paragraphs longer than 50 characters after
trimming, scored by contained message words; the winner's first two long
sentences are returned (server lines 446-466). -/
def paraStage (message : String) (dataContent : String) : Option String :=
  let paragraphs := (splitParas dataContent).filter (fun p => (jsTrim p).length > 50)
  match paraBestFold (msgWords3 message) ("", 0) paragraphs with
  | (bp, bc) =>
    if bp ≠ "" ∧ bc > 0 then
      let sentences := (splitSentences bp).filter (fun s => (jsTrim s).length > 15)
      some (jsTrim (joinWith ". " (sentences.take 2)) ++ ".")
    else none

/-- Lazy tail of the regex `ORDER HISTORY:[\s\S]*?` with the lookahead
stopping at a newline followed by an uppercase letter or at the end of the
string. -/
def lazyUptoNlUpper : List Char → List Char
  | [] => []
  | c :: rest =>
    if c = '\n' then
      match rest with
      | c2 :: rest2 =>
        if c2.isUpper then []
        else '\n' :: lazyUptoNlUpper (c2 :: rest2)
      | [] => ['\n']
    else c :: lazyUptoNlUpper rest

/-- Remove the first occurrence of `pat` (plain case-sensitive `replace` with
an empty replacement). -/
def removeFirstL (pat : List Char) : List Char → List Char
  | [] => []
  | c :: rest =>
    if prefixOfB pat (c :: rest) then (c :: rest).drop pat.length
    else c :: removeFirstL pat rest

/-- String form of the first-occurrence removal. -/
def removeFirstOcc (pat s : String) : String :=
  String.mk (removeFirstL pat.data s.data)

/-- Last resort stage (server lines 468-474): if the document contains the
`ORDER HISTORY` marker and the colon-labelled regex matches, return the first
three lines after the label joined with spaces. -/
def lastResortStage (dataContent : String) : Option String :=
  if strContains dataContent "ORDER HISTORY" then
    match afterFirst "ORDER HISTORY:".data dataContent.data with
    | some rest =>
      let matched := String.mk ("ORDER HISTORY:".data ++ lazyUptoNlUpper rest)
      let cleaned := jsTrim (removeFirstOcc "ORDER HISTORY:" matched)
      some (jsTrim (joinWith " " ((splitNl cleaned).take 3)))
    | none => none
  else none

/-- Full extraction chain `getAnswerFromData` (server lines 197-477); an
empty document is falsy and yields `none` immediately. -/
def getAnswerFromData (userMessage dataContent : String) : Option String :=
  if dataContent = "" then none
  else
    let message := lowerStr userMessage
    let lines := splitNl dataContent
    match productStage message lines with
    | some r => some r
    | none =>
      match qaStage message lines with
      | some r => some r
      | none =>
        match sectionStage message lines with
        | some r => some r
        | none =>
          match paraStage message dataContent with
          | some r => some r
          | none => lastResortStage dataContent

/-! ### `getImprovedMockResponse` (server, lines 483-590) and its collaborators -/

/-- Topic-to-filename chain of `getDataFromFile` (server lines 138-150).
Note that the topic `payments` used by the payments branch is absent from the
chain, so that branch can never obtain a file. -/
def topicToFile (topic : String) : Option String :=
  if topic == "returns" || topic == "return" || topic == "refund" then some "returns.txt"
  else if topic == "shipping" || topic == "ship" || topic == "delivery" then some "shipping.txt"
  else if topic == "payment" || topic == "pay" || topic == "billing" then some "payments.txt"
  else if topic == "order" || topic == "orders" || topic == "tracking" then some "orders.txt"
  else if topic == "warranty" || topic == "warranties" then some "warranty.txt"
  else none

/-- Model of `getDataFromFile`: the file store `fs` maps a filename to its
content when the file exists and is readable. -/
def getDataFromFile (fs : String → Option String) (topic : String) : Option String :=
  match topicToFile topic with
  | some fn => fs fn
  | none => none

/-- Anchored greeting regex (server line 487). -/
def greetingPat (m : String) : Bool :=
  strStarts m "hi" || strStarts m "hello" || strStarts m "hey" || strStarts m "greetings"
    || strStarts m "good morning" || strStarts m "good afternoon" || strStarts m "good evening"

/-- How-are-you regex (server line 492). -/
def howAreYouPat (m : String) : Bool :=
  strContains m "how are you" || strContains m "how r u"
    || strContains m "how\x27s it going" || strContains m "how do you do"

/-- Returns-topic regex (server line 497). -/
def returnsPat (m : String) : Bool :=
  strContains m "return" || strContains m "refund" || strContains m "exchange"
    || seqContains m "cancel" "order"

/-- Shipping-topic regex (server line 508). -/
def shippingPat (m : String) : Bool :=
  strContains m "ship" || strContains m "shipping" || strContains m "delivery"
    || strContains m "deliver" || strContains m "track" || strContains m "tracking"
    || seqContains m "when" "arrive" || seqContains m "how long" "ship"

/-- Payments-topic regex (server line 519). -/
def paymentsPat (m : String) : Bool :=
  strContains m "pay" || strContains m "payment" || strContains m "billing"
    || strContains m "card" || strContains m "credit" || strContains m "debit"
    || strContains m "paypal" || seqContains m "how" "pay" || strContains m "payment method"

/-- Orders-topic regex (server line 530). -/
def ordersPat (m : String) : Bool :=
  strContains m "order" || strContains m "orders" || seqContains m "latest" "order"
    || seqContains m "recent" "order" || strContains m "my order"
    || strContains m "order history" || strContains m "order status"
    || seqContains m "track" "order" || seqContains m "place" "order"
    || seqContains m "view" "order" || strContains m "order id"
    || strContains m "order ids" || strContains m "all order"

/-- Order-id sub-intent regex (server line 537). -/
def orderIdPat (m : String) : Bool :=
  strContains m "order id" || strContains m "order ids" || strContains m "all order"
    || seqContains m "get" "order id"

/-- Latest-order sub-intent regex (server line 541). -/
def latestOrderPat (m : String) : Bool :=
  seqContains m "latest" "order" || seqContains m "recent" "order"
    || seqContains m "last" "order" || seqContains m "newest" "order"

/-- Tracking sub-intent regex (server line 545). -/
def trackOrderPat (m : String) : Bool :=
  strContains m "track" || strContains m "tracking" || seqContains m "where" "order"
    || strContains m "order status"

/-- Cancellation sub-intent regex (server line 549). -/
def cancelPat (m : String) : Bool :=
  strContains m "cancel" || strContains m "cancellation"

/-- Thanks regex (server line 564). -/
def thanksPat (m : String) : Bool :=
  strContains m "thank" || strContains m "thanks" || strContains m "appreciate"

/-- Goodbye regex (server line 569). -/
def goodbyePat (m : String) : Bool :=
  strContains m "bye" || strContains m "goodbye" || strContains m "see you"
    || strContains m "farewell" || strContains m "exit" || strContains m "quit"

/-- Warranty-topic regex (server line 575). -/
def warrantyPat (m : String) : Bool :=
  strContains m "warranty" || strContains m "warranties" || strContains m "repair"
    || strContains m "service" || strContains m "guarantee" || strContains m "coverage"
    || seqContains m "register" "product" || seqContains m "extended" "warranty"
    || seqContains m "international" "warranty" || seqContains m "samsung" "warranty"
    || strContains m "tablet" || strContains m "smartphone" || strContains m "phone"
    || strContains m "watch" || strContains m "buds" || strContains m "headphone"
    || strContains m "charger" || strContains m "battery"

/-- Canned greeting reply. -/
def greetingReply : String :=
  "Hello! I\x27m here to help you with returns, shipping, payments, and orders. How can I assist you today?"

/-- Canned how-are-you reply. -/
def howAreYouReply : String :=
  "I\x27m doing great, thank you for asking! I\x27m here and ready to help you with any questions about returns, shipping, payments, or orders. What can I do for you today?"

/-- Canned returns fallback reply. -/
def returnsFallbackReply : String :=
  "I can help you with returns and refunds. Items can be returned within 30 days of purchase in original condition. Would you like more details about our return policy?"

/-- Canned shipping fallback reply. -/
def shippingFallbackReply : String :=
  "Standard shipping takes 5-7 business days. Express is 2-3 days, and overnight is next business day. Free shipping available on orders over $75. Would you like more shipping information?"

/-- Canned payments fallback reply. -/
def paymentsFallbackReply : String :=
  "We accept all major credit cards, debit cards, PayPal, Apple Pay, and Google Pay. All payments are processed securely. Would you like more payment information?"

/-- Canned order-id sub-intent reply. -/
def orderIdReply : String :=
  "You can view all your order IDs by logging into your account at www.oursite.com/my-orders. Your order history page shows all past orders with their order numbers. You can also find order IDs in your order confirmation emails."

/-- Canned latest-order sub-intent reply. -/
def latestOrderReply : String :=
  "To view your latest order, log into your account at www.oursite.com/my-orders. You can see all your past orders there, with the most recent orders at the top. You can also check your email for order confirmation messages."

/-- Canned tracking sub-intent reply. -/
def trackOrderReply : String :=
  "You can track your order using your order number and email at www.oursite.com/my-orders. You\x27ll also receive email updates at each stage of your order. Login to see real-time tracking information."

/-- Canned cancellation sub-intent reply. -/
def cancelOrderReply : String :=
  "You can cancel your order within 1 hour of placing it. After that, contact us immediately and we\x27ll try to help if the order hasn\x27t shipped yet."

/-- Canned generic orders reply. -/
def genericOrderReply : String :=
  "I can help you with your orders. You can view your order history, track orders, and manage your account at www.oursite.com/my-orders. What specific information do you need about your order?"

/-- Canned help reply. -/
def helpReply : String :=
  "I\x27d be happy to help! I can assist you with returns, shipping, payments, and orders. What would you like to know about?"

/-- Canned thanks reply. -/
def thanksReply : String :=
  "You\x27re very welcome! Is there anything else I can help you with today?"

/-- Canned goodbye reply. -/
def goodbyeReply : String :=
  "Thank you for contacting us! Have a wonderful day! If you need anything else, feel free to reach out anytime."

/-- Canned warranty fallback reply. -/
def warrantyFallbackReply : String :=
  "I can help you with Samsung warranty information. All Samsung products come with a standard manufacturer\x27s warranty. You can register your product online through My Page for faster support. Would you like to know more about warranty periods for specific products or how to book a repair?"

/-- Canned default reply. -/
def defaultReply : String :=
  "I\x27m a Samsung warranty specialist. I can help you with information about Samsung product warranties, repairs, product registration, and support services. What would you like to know?"

/-- Nested canned sub-intent cascade of the orders branch (server lines
537-554), tried in order: order-id, latest-order, tracking, cancellation,
then the generic orders reply. -/
def ordersCascade (message : String) : String :=
  if orderIdPat message then orderIdReply
  else if latestOrderPat message then latestOrderReply
  else if trackOrderPat message then trackOrderReply
  else if cancelPat message then cancelOrderReply
  else genericOrderReply

/-- Result of the mock responder together with the ordered list of topics for
which `getDataFromFile` was invoked (the corpus-fetch trace). -/
structure MockResult where
  reply : String
  reads : List String
deriving DecidableEq, Repr

/-- Warranty branch and final default (server lines 575-589).  The guard
`if (data)` is falsy on an existing-but-empty file, which therefore falls
through to the default reply; the `answer && answer.length > 10` test is the
length gate (an empty answer has length 0). -/
def branchWarranty (userMessage message : String) (fs : String → Option String)
    (reads : List String) : MockResult :=
  if warrantyPat message then
    let reads := reads ++ ["warranty"]
    match getDataFromFile fs "warranty" with
    | some d =>
      if d = "" then ⟨defaultReply, reads⟩
      else
        match getAnswerFromData userMessage d with
        | some a => if a.length > 10 then ⟨a, reads⟩ else ⟨warrantyFallbackReply, reads⟩
        | none => ⟨warrantyFallbackReply, reads⟩
    | none => ⟨defaultReply, reads⟩
  else ⟨defaultReply, reads⟩

/-- Goodbye branch (server line 569). -/
def branchGoodbye (userMessage message : String) (fs : String → Option String)
    (reads : List String) : MockResult :=
  if goodbyePat message then ⟨goodbyeReply, reads⟩
  else branchWarranty userMessage message fs reads

/-- Thanks branch (server line 564). -/
def branchThanks (userMessage message : String) (fs : String → Option String)
    (reads : List String) : MockResult :=
  if thanksPat message then ⟨thanksReply, reads⟩
  else branchGoodbye userMessage message fs reads

/-- Help branch (server line 559). -/
def branchHelp (userMessage message : String) (fs : String → Option String)
    (reads : List String) : MockResult :=
  if strContains message "help" then ⟨helpReply, reads⟩
  else branchThanks userMessage message fs reads

/-- Orders branch (server lines 530-556): the extraction result is used only
when longer than 30 characters, otherwise the canned sub-intent cascade.  The
`if (data)` guard is falsy on an existing-but-empty file, which therefore
falls through to the later branches; the `answer && answer.length > 30` test
is the length gate (an empty answer has length 0). -/
def branchOrders (userMessage message : String) (fs : String → Option String)
    (reads : List String) : MockResult :=
  if ordersPat message then
    let reads := reads ++ ["orders"]
    match getDataFromFile fs "orders" with
    | some d =>
      if d = "" then branchHelp userMessage message fs reads
      else
        match getAnswerFromData userMessage d with
        | some a => if a.length > 30 then ⟨a, reads⟩ else ⟨ordersCascade message, reads⟩
        | none => ⟨ordersCascade message, reads⟩
    | none => branchHelp userMessage message fs reads
  else branchHelp userMessage message fs reads

/-- Payments branch (server lines 519-527), with the `if (data)` and
`if (answer)` truthiness guards: an empty file falls through, an empty answer
takes the canned fallback. -/
def branchPayments (userMessage message : String) (fs : String → Option String)
    (reads : List String) : MockResult :=
  if paymentsPat message then
    let reads := reads ++ ["payments"]
    match getDataFromFile fs "payments" with
    | some d =>
      if d = "" then branchOrders userMessage message fs reads
      else
        match getAnswerFromData userMessage d with
        | some a => if a = "" then ⟨paymentsFallbackReply, reads⟩ else ⟨a, reads⟩
        | none => ⟨paymentsFallbackReply, reads⟩
    | none => branchOrders userMessage message fs reads
  else branchOrders userMessage message fs reads

/-- Shipping branch (server lines 508-516), with the `if (data)` and
`if (answer)` truthiness guards: an empty file falls through, an empty answer
takes the canned fallback. -/
def branchShipping (userMessage message : String) (fs : String → Option String)
    (reads : List String) : MockResult :=
  if shippingPat message then
    let reads := reads ++ ["shipping"]
    match getDataFromFile fs "shipping" with
    | some d =>
      if d = "" then branchPayments userMessage message fs reads
      else
        match getAnswerFromData userMessage d with
        | some a => if a = "" then ⟨shippingFallbackReply, reads⟩ else ⟨a, reads⟩
        | none => ⟨shippingFallbackReply, reads⟩
    | none => branchPayments userMessage message fs reads
  else branchPayments userMessage message fs reads

/-- Returns branch (server lines 497-505), with the `if (data)` and
`if (answer)` truthiness guards: an empty file falls through, an empty answer
takes the canned fallback. -/
def branchReturns (userMessage message : String) (fs : String → Option String)
    (reads : List String) : MockResult :=
  if returnsPat message then
    let reads := reads ++ ["returns"]
    match getDataFromFile fs "returns" with
    | some d =>
      if d = "" then branchShipping userMessage message fs reads
      else
        match getAnswerFromData userMessage d with
        | some a => if a = "" then ⟨returnsFallbackReply, reads⟩ else ⟨a, reads⟩
        | none => ⟨returnsFallbackReply, reads⟩
    | none => branchShipping userMessage message fs reads
  else branchShipping userMessage message fs reads

/-- Full `getImprovedMockResponse` over an explicit file store, returning the
reply and the corpus-fetch trace. -/
def mockResponse (userMessage : String) (fs : String → Option String) : MockResult :=
  let message := jsTrim (lowerStr userMessage)
  if greetingPat message then ⟨greetingReply, []⟩
  else if howAreYouPat message then ⟨howAreYouReply, []⟩
  else branchReturns userMessage message fs []

/-! ### Knowledge source cache (`scraper.js`, lines 11-16 and 305-368) -/

/-- Cache TTL `CACHE_DURATION` in milliseconds. -/
def CACHE_DURATION : Int := 3600000

/-- Module-level `warrantyCache` object: both fields are `null` initially. -/
structure WCache where
  data : Option String
  timestamp : Option Int
deriving DecidableEq, Repr

/-- Outcome of one invocation of the live fetcher. -/
inductive FetchOutcome where
  | success (text : String) : FetchOutcome
  | failure : FetchOutcome
deriving DecidableEq, Repr

/-- Result of `getWarrantyWithCache`: the returned text (`none` models the
propagated error), the cache afterwards, and whether the live fetcher was
invoked. -/
structure GetResult where
  result : Option String
  cache : WCache
  fetchAttempted : Bool
deriving DecidableEq, Repr

/-- Freshness test of the cache (scraper line 315).  JavaScript truthiness of
`warrantyCache.data && warrantyCache.timestamp` makes an empty cached string
or a zero timestamp count as no cache at all. -/
def cacheFresh (c : WCache) (now : Int) : Bool :=
  match c.data, c.timestamp with
  | some d, some ts => d ≠ "" && ts ≠ 0 && now - ts < CACHE_DURATION
  | _, _ => false

/-- Model of `getWarrantyWithCache` (scraper lines 311-344): fresh cache hit,
else live fetch (cached on success), else static fallback file (cached on
success), else the error propagates with the cache unchanged. -/
def getWarrantyWithCache (now : Int) (fetch : FetchOutcome)
    (fallbackFile : Option String) (c : WCache) : GetResult :=
  if cacheFresh c now then ⟨c.data, c, false⟩
  else
    match fetch with
    | .success t => ⟨some t, ⟨some t, some now⟩, true⟩
    | .failure =>
      match fallbackFile with
      | some f => ⟨some f, ⟨some f, some now⟩, true⟩
      | none => ⟨none, c, true⟩

/-- Model of `clearWarrantyCache` (scraper lines 362-368). -/
def clearWarrantyCache (_c : WCache) : WCache :=
  ⟨none, none⟩

/-! ### Live source fetcher catalog logic (`scraper.js`, lines 40-172) -/

/-- One candidate text node of the scanned page, with the surrounding text
used by the co-occurrence check (`parent().text()` and `next().text()`). -/
structure PNode where
  text : String
  parentText : String
  nextText : String
deriving DecidableEq, Repr

/-- The hard-coded `productWarrantyMap` (scraper lines 48-77), in object
insertion order: key, period, repair services list. -/
def productWarrantyMap : List (String × String × List String) :=
  [("smartphone", "24 Months", ["In-store repair", "Pick up repair", "Doorstep repair"]),
   ("tablet", "24 Months", ["In-store repair", "Pick up repair", "Doorstep repair"]),
   ("galaxy buds", "12 Months", ["In-store repair", "Pick up repair"]),
   ("wireless headphones", "12 Months", ["In-store repair", "Pick up repair"]),
   ("galaxy watch", "24 Months", ["In-store repair", "Pick up repair", "Doorstep repair"]),
   ("gear smart watch", "24 Months", ["In-store repair", "Pick up repair", "Doorstep repair"]),
   ("galaxy ring", "12 Months", ["Pick up repair"]),
   ("charger", "12 Months", ["In-store repair", "Pick up repair"]),
   ("battery", "12 Months", ["In-store repair", "Pick up repair"]),
   ("wired headphones", "12 Months", ["In-store repair", "Pick up repair"]),
   ("watch strap", "6 Months", ["In-store repair", "Pick up repair"]),
   ("s pen", "12 Months", ["In-store repair", "Pick up repair"]),
   ("cooker hood", "24 Months", ["In-store repair", "Pick up repair", "Doorstep repair"]),
   ("hood", "24 Months", ["In-store repair", "Pick up repair", "Doorstep repair"]),
   ("robotic vacuum cleaners", "24 Months", ["In-store repair", "Pick up repair", "Doorstep repair"]),
   ("robotic vacuum", "24 Months", ["In-store repair", "Pick up repair", "Doorstep repair"]),
   ("vacuum cleaners", "24 Months", ["In-store repair", "Pick up repair", "Doorstep repair"]),
   ("vacuum cleaner", "24 Months", ["In-store repair", "Pick up repair", "Doorstep repair"]),
   ("large format display", "36 Months", ["In-store repair", "Pick up repair", "Doorstep repair"]),
   ("set back box", "36 Months", ["In-store repair", "Pick up repair", "Doorstep repair"]),
   ("sbb", "36 Months", ["In-store repair", "Pick up repair", "Doorstep repair"]),
   ("monitor", "24 Months", ["In-store repair", "Pick up repair", "Doorstep repair"]),
   ("monitor for consumers", "24 Months", ["In-store repair", "Pick up repair", "Doorstep repair"]),
   ("oled monitor", "24 Months", ["In-store repair", "Pick up repair", "Doorstep repair"]),
   ("oled monitor for consumers", "24 Months", ["In-store repair", "Pick up repair", "Doorstep repair"])]

/-- Warranty-signal check of one node: the concatenated parent and next text
(lowercased) mentions `warranty period` or `months` (scraper lines 89-93). -/
def nodeSignal (n : PNode) : Bool :=
  let combined := lowerStr (n.parentText ++ " " ++ n.nextText)
  strContains combined "warranty period" || strContains combined "months"

/-- Map entry emitted by one node: the first key of the map contained in the
node's lowercased text, provided the warranty signal holds (scraper lines
86-102). -/
def nodeEntry (n : PNode) : Option (String × String × List String) :=
  productWarrantyMap.find? (fun e => strContains (lowerStr n.text) e.1 && nodeSignal n)

/-- Canonical keys of the structured records recognized from the page. -/
def emittedKeys (nodes : List PNode) : List String :=
  nodes.filterMap (fun n => (nodeEntry n).map Prod.fst)

/-- Text block emitted for one recognized record (scraper lines 94-98). -/
def blockFor (e : String × String × List String) : String :=
  upperStr e.1 ++ ":\n- Warranty period: " ++ e.2.1
    ++ "\n- Warranty service offered: Our Samsung Authorised Service Partners offer both In and Out of warranty repairs.\n- Repair services available: "
    ++ joinWith ", " e.2.2 ++ "\n\n"

/-- Concatenation of a list of strings. -/
def joinAll : List String → String
  | [] => ""
  | s :: rest => s ++ joinAll rest

/-- Fixed preamble of the built warranty text (scraper lines 40-45). -/
def fetchPreamble : String :=
  "SAMSUNG WARRANTY INFORMATION - COMPREHENSIVE GUIDE\n\n=== STANDARD WARRANTY ===\nAll Samsung products come with a standard manufacturer\x27s warranty.\n\n=== MOBILE DEVICES WARRANTY ===\n\n"

/-- The `warrantyInfo` text accumulated just before the substitution check at
scraper line 106: preamble plus the blocks of all recognized records. -/
def headerText (nodes : List PNode) : String :=
  fetchPreamble ++ joinAll (nodes.filterMap (fun n => (nodeEntry n).map blockFor))

/-- The substitution condition of scraper line 106: the accumulated text
contains neither `SMARTPHONE:` nor `COOKER HOOD:`. -/
def substituted (nodes : List PNode) : Bool :=
  !(strContains (headerText nodes) "SMARTPHONE:")
    && !(strContains (headerText nodes) "COOKER HOOD:")

/-! ### Hugging Face retry loop (server, lines 58-126) -/

/-- Abstracted outcome of one request to the generative responder:
`warming` is a 503 status carrying `estimated_time` (wait, then retry);
`failed` is any other non-ok response (mock fallback); `good t` is an ok
response whose extracted text has length above 5 (returned); `poor` is an ok
response without such text (mock fallback). -/
inductive HFResp where
  | warming : HFResp
  | failed : HFResp
  | poor : HFResp
  | good (t : String) : HFResp
deriving DecidableEq, Repr

/-- Run of `getHuggingFaceResponse` against the trace of successive responses:
each `warming` response consumes one timed wait and one recursive retry.
`none` means the trace was exhausted while still retrying (the recursion has
not returned within the observed window). -/
def hfRun (mock : String) : List HFResp → Option String
  | [] => none
  | .warming :: rest => hfRun mock rest
  | .failed :: _ => some mock
  | .poor :: _ => some mock
  | .good t :: _ => some t

/-- Number of requests actually issued against the trace (the initial attempt
plus one re-attempt per consumed `warming` response). -/
def hfAttempts : List HFResp → Nat
  | [] => 0
  | .warming :: rest => 1 + hfAttempts rest
  | _ :: _ => 1

/-- Number of leading `warming` responses of a trace. -/
def leadWarm : List HFResp → Nat
  | .warming :: rest => 1 + leadWarm rest
  | _ => 0

/-! ### Generic lemmas about the string utilities -/

theorem prefixOfB_iff : ∀ (p l : List Char), prefixOfB p l = true ↔ ∃ t, p ++ t = l
  | [], l => by simp [prefixOfB]
  | _ :: _, [] => by simp [prefixOfB]
  | a :: as, b :: bs => by
    simp only [prefixOfB, Bool.and_eq_true, beq_iff_eq]
    constructor
    · rintro ⟨rfl, h⟩
      obtain ⟨t, rfl⟩ := (prefixOfB_iff as bs).1 h
      exact ⟨t, rfl⟩
    · rintro ⟨t, h⟩
      injection h with h1 h2
      subst h1
      exact ⟨rfl, (prefixOfB_iff as bs).2 ⟨t, h2⟩⟩

theorem listContains_iff : ∀ (l p : List Char), listContains l p = true ↔ ∃ s t, s ++ p ++ t = l
  | [], p => by
    simp only [listContains, List.isEmpty_iff]
    constructor
    · rintro rfl
      exact ⟨[], [], rfl⟩
    · rintro ⟨s, t, h⟩
      rcases List.append_eq_nil.1 h with ⟨h2, _⟩
      rcases List.append_eq_nil.1 h2 with ⟨_, hp⟩
      exact hp
  | c :: rest, p => by
    simp only [listContains, Bool.or_eq_true]
    constructor
    · rintro (h | h)
      · obtain ⟨t, ht⟩ := (prefixOfB_iff p (c :: rest)).1 h
        exact ⟨[], t, ht⟩
      · obtain ⟨s, t, ht⟩ := (listContains_iff rest p).1 h
        exact ⟨c :: s, t, by simp [ht]⟩
    · rintro ⟨s, t, ht⟩
      cases s with
      | nil =>
        exact Or.inl ((prefixOfB_iff p (c :: rest)).2 ⟨t, by simpa using ht⟩)
      | cons c2 s2 =>
        refine Or.inr ((listContains_iff rest p).2 ⟨s2, t, ?_⟩)
        simpa using congrArg List.tail ht

theorem strContains_of_decomp {x pat : String} {s t : List Char}
    (h : s ++ pat.data ++ t = x.data) : strContains x pat = true :=
  (listContains_iff x.data pat.data).2 ⟨s, t, h⟩

theorem dropTrailWs_decomp (l : List Char) : ∃ t, dropTrailWs l ++ t = l := by
  refine ⟨(l.reverse.takeWhile jsWs).reverse, ?_⟩
  show (l.reverse.dropWhile jsWs).reverse ++ (l.reverse.takeWhile jsWs).reverse = l
  rw [← List.reverse_append, List.takeWhile_append_dropWhile, List.reverse_reverse]

theorem jsTrim_decomp (x : String) : ∃ s t, s ++ (jsTrim x).data ++ t = x.data := by
  obtain ⟨t, ht⟩ := dropTrailWs_decomp (x.data.dropWhile jsWs)
  refine ⟨x.data.takeWhile jsWs, t, ?_⟩
  show x.data.takeWhile jsWs ++ dropTrailWs (x.data.dropWhile jsWs) ++ t = x.data
  rw [List.append_assoc, ht, List.takeWhile_append_dropWhile]

theorem stripQLower_decomp (x : String) : ∃ s, s ++ (stripQLower x).data = x.data := by
  unfold stripQLower
  by_cases h : strStarts x "q:" = true
  · rw [if_pos h]
    refine ⟨x.data.take 2 ++ (x.data.drop 2).takeWhile jsWs, ?_⟩
    show x.data.take 2 ++ (x.data.drop 2).takeWhile jsWs ++ (x.data.drop 2).dropWhile jsWs = x.data
    rw [List.append_assoc, List.takeWhile_append_dropWhile, List.take_append_drop]
  · rw [if_neg h]
    exact ⟨[], rfl⟩

theorem strContains_trim_stripQ (x : String) :
    strContains x (jsTrim (stripQLower x)) = true := by
  obtain ⟨s1, hs1⟩ := stripQLower_decomp x
  obtain ⟨s2, t2, hst⟩ := jsTrim_decomp (stripQLower x)
  refine strContains_of_decomp (s := s1 ++ s2) (t := t2 ++ []) ?_
  have : s2 ++ (jsTrim (stripQLower x)).data ++ t2 = (stripQLower x).data := hst
  calc (s1 ++ s2) ++ (jsTrim (stripQLower x)).data ++ (t2 ++ [])
      = s1 ++ (s2 ++ (jsTrim (stripQLower x)).data ++ t2) := by simp
    _ = s1 ++ (stripQLower x).data := by rw [this]
    _ = x.data := hs1

theorem strContains_of_strStarts {r pat : String} (h : strStarts r pat = true) :
    strContains r pat = true := by
  obtain ⟨t, ht⟩ := (prefixOfB_iff pat.data r.data).1 h
  exact strContains_of_decomp (s := []) (t := t) (by simpa using ht)

/-! ### Lemmas about the Q&A scorer -/

theorem qaPhraseScore_self (qLower : String) : qaPhraseScore qLower qLower = 100 := by
  unfold qaPhraseScore
  rw [strContains_trim_stripQ qLower]
  simp

theorem qaWordScore_nonneg (message qLower : String) : 0 ≤ qaWordScore message qLower := by
  unfold qaWordScore
  split
  · exact mul_nonneg (div_nonneg (Nat.cast_nonneg _) (Nat.cast_nonneg _)) (by norm_num)
  · exact le_refl 0

theorem qaBonusTerm_nonneg (message qLower kw : String) (amount : ℚ) (hk : 0 ≤ amount) :
    0 ≤ qaBonusTerm message qLower kw amount := by
  unfold qaBonusTerm
  split
  · exact hk
  · exact le_refl 0

theorem qaBonus_nonneg (message qLower : String) : 0 ≤ qaBonus message qLower := by
  unfold qaBonus
  have h20 : (0:ℚ) ≤ 20 := by norm_num
  have h30 : (0:ℚ) ≤ 30 := by norm_num
  have t1 := qaBonusTerm_nonneg message qLower "track" 20 h20
  have t2 := qaBonusTerm_nonneg message qLower "cancel" 20 h20
  have t3 := qaBonusTerm_nonneg message qLower "latest" 20 h20
  have t4 := qaBonusTerm_nonneg message qLower "order id" 30 h30
  have t5 := qaBonusTerm_nonneg message qLower "all order" 30 h30
  have t6 := qaBonusTerm_nonneg message qLower "reorder" 20 h20
  have t7 := qaBonusTerm_nonneg message qLower "change" 20 h20
  have t8 := qaBonusTerm_nonneg message qLower "wrong item" 30 h30
  linarith

theorem qaPenalty_self (qLower : String) : qaPenalty qLower qLower = 0 := by
  unfold qaPenalty
  cases h : strContains qLower "track" <;> simp [h]

theorem scoreQA_ge_100 (q a : String) : 100 ≤ scoreQA (lowerStr q) ⟨q, a⟩ := by
  unfold scoreQA
  have h1 := qaPhraseScore_self (lowerStr q)
  have h2 := qaWordScore_nonneg (lowerStr q) (lowerStr q)
  have h3 := qaBonus_nonneg (lowerStr q) (lowerStr q)
  have h4 := qaPenalty_self (lowerStr q)
  simp only [QAPair.mk.injEq] at *
  rw [show lowerStr (QAPair.question ⟨q, a⟩) = lowerStr q from rfl, h1, h4]
  linarith

/-- The best-match fold never lowers the running best score, and its result
dominates the score of every pair in the list. -/
theorem qaBestFold_ge (message : String) :
    ∀ (pairs : List QAPair) (acc : Option QAPair × ℚ),
      acc.2 ≤ (qaBestFold message acc pairs).2 ∧
      ∀ p ∈ pairs, scoreQA message p ≤ (qaBestFold message acc pairs).2
  | [], acc => by
    refine ⟨le_refl _, ?_⟩
    intro p hp
    cases hp
  | qa :: rest, (bm, bs) => by
    show bs ≤ (qaBestFold message (bm, bs) (qa :: rest)).2 ∧ _
    by_cases h : scoreQA message qa > bs
    · have hrec := qaBestFold_ge message rest (some qa, scoreQA message qa)
      have hstep : qaBestFold message (bm, bs) (qa :: rest)
          = qaBestFold message (some qa, scoreQA message qa) rest := by
        simp only [qaBestFold, if_pos h]
      rw [hstep]
      refine ⟨le_of_lt (lt_of_lt_of_le h hrec.1), ?_⟩
      intro p hp
      rcases List.mem_cons.1 hp with rfl | hp2
      · exact le_trans (le_refl _) hrec.1
      · exact hrec.2 p hp2
    · have hrec := qaBestFold_ge message rest (bm, bs)
      have hstep : qaBestFold message (bm, bs) (qa :: rest)
          = qaBestFold message (bm, bs) rest := by
        simp only [qaBestFold, if_neg h]
      rw [hstep]
      refine ⟨hrec.1, ?_⟩
      intro p hp
      rcases List.mem_cons.1 hp with rfl | hp2
      · exact le_trans (le_of_not_lt h) hrec.1
      · exact hrec.2 p hp2

/-- The best-match fold either keeps its accumulator or ends on some pair of
the list paired with that pair's score. -/
theorem qaBestFold_cases (message : String) :
    ∀ (pairs : List QAPair) (acc : Option QAPair × ℚ),
      qaBestFold message acc pairs = acc ∨
      ∃ p ∈ pairs, qaBestFold message acc pairs = (some p, scoreQA message p)
  | [], acc => Or.inl rfl
  | qa :: rest, (bm, bs) => by
    by_cases h : scoreQA message qa > bs
    · have hstep : qaBestFold message (bm, bs) (qa :: rest)
          = qaBestFold message (some qa, scoreQA message qa) rest := by
        simp only [qaBestFold, if_pos h]
      rcases qaBestFold_cases message rest (some qa, scoreQA message qa) with heq | ⟨p, hp, heq⟩
      · exact Or.inr ⟨qa, List.mem_cons_self qa rest, by rw [hstep, heq]⟩
      · exact Or.inr ⟨p, List.mem_cons_of_mem qa hp, by rw [hstep, heq]⟩
    · have hstep : qaBestFold message (bm, bs) (qa :: rest)
          = qaBestFold message (bm, bs) rest := by
        simp only [qaBestFold, if_neg h]
      rcases qaBestFold_cases message rest (bm, bs) with heq | ⟨p, hp, heq⟩
      · exact Or.inl (by rw [hstep, heq])
      · exact Or.inr ⟨p, List.mem_cons_of_mem qa hp, by rw [hstep, heq]⟩

/-- Acceptance: a member pair scoring at least 100 forces the stage to return
the answer of a maximal pair whose score clears the threshold. -/
theorem qaStagePairs_accept (message : String) (pairs : List QAPair) (q a : String)
    (hmem : QAPair.mk q a ∈ pairs) (h100 : 100 ≤ scoreQA message ⟨q, a⟩) :
    ∃ p ∈ pairs, qaStagePairs message pairs = some p.answer ∧
      15 < scoreQA message p ∧
      ∀ p2 ∈ pairs, scoreQA message p2 ≤ scoreQA message p := by
  have hge := qaBestFold_ge message pairs (none, 0)
  have hbig : (100:ℚ) ≤ (qaBestFold message (none, 0) pairs).2 :=
    le_trans h100 (hge.2 _ hmem)
  rcases qaBestFold_cases message pairs (none, 0) with heq | ⟨p, hp, heq⟩
  · rw [heq] at hbig
    norm_num at hbig
  · refine ⟨p, hp, ?_, ?_, ?_⟩
    · unfold qaStagePairs
      rw [heq]
      have : (15:ℚ) < scoreQA message p := by
        have := hbig
        rw [heq] at this
        linarith
      simp [this]
    · have := hbig
      rw [heq] at this
      linarith
    · intro p2 hp2
      have := hge.2 p2 hp2
      rw [heq] at this
      exact this

/-- Rejection: when every pair scores at most 15 the stage returns nothing. -/
theorem qaStagePairs_reject (message : String) (pairs : List QAPair)
    (h : ∀ p ∈ pairs, scoreQA message p ≤ 15) :
    qaStagePairs message pairs = none := by
  rcases qaBestFold_cases message pairs (none, 0) with heq | ⟨p, hp, heq⟩
  · unfold qaStagePairs
    rw [heq]
  · unfold qaStagePairs
    rw [heq]
    have : ¬ (15:ℚ) < scoreQA message p := not_lt.2 (h p hp)
    simp [this]

/-- C2.  Q&A Scorer exact-match guarantee: when the parsed pairs of a corpus
contain a question `q` and the query equals `q` up to case, the pair for `q`
scores at least 100, the stage selects a maximum-scoring pair, that score
clears the threshold 15, and the selected pair's stored answer is returned
verbatim; conversely the stage returns no answer when every pair scores at
most 15. -/
theorem C2_qa_exact_match :
    (∀ (lines : List String) (q a query : String),
        QAPair.mk q a ∈ parseQAPairs lines →
        lowerStr query = lowerStr q →
        100 ≤ scoreQA (lowerStr query) ⟨q, a⟩ ∧
        ∃ p ∈ parseQAPairs lines,
          qaStagePairs (lowerStr query) (parseQAPairs lines) = some p.answer ∧
          15 < scoreQA (lowerStr query) p ∧
          ∀ p2 ∈ parseQAPairs lines,
            scoreQA (lowerStr query) p2 ≤ scoreQA (lowerStr query) p) ∧
    (∀ (message : String) (pairs : List QAPair),
        (∀ p ∈ pairs, scoreQA message p ≤ 15) →
        qaStagePairs message pairs = none) := by
  constructor
  · intro lines q a query hmem hcase
    have h100 : 100 ≤ scoreQA (lowerStr query) ⟨q, a⟩ := by
      rw [hcase]
      exact scoreQA_ge_100 q a
    exact ⟨h100, qaStagePairs_accept (lowerStr query) (parseQAPairs lines) q a hmem h100⟩
  · intro message pairs h
    exact qaStagePairs_reject message pairs h

/-- Witness for C2 at a concrete two-line corpus and a query differing from
the stored question only in case. -/
theorem C2_qa_exact_match_witness :
    (QAPair.mk "can i track my order" "Yes you can."
        ∈ parseQAPairs (splitNl "Q: Can I track my order\nA: Yes you can.") ∧
      lowerStr "Can I TRACK my order" = lowerStr "can i track my order") ∧
    (100 ≤ scoreQA (lowerStr "Can I TRACK my order") ⟨"can i track my order", "Yes you can."⟩ ∧
      ∃ p ∈ parseQAPairs (splitNl "Q: Can I track my order\nA: Yes you can."),
        qaStagePairs (lowerStr "Can I TRACK my order")
            (parseQAPairs (splitNl "Q: Can I track my order\nA: Yes you can.")) = some p.answer ∧
        15 < scoreQA (lowerStr "Can I TRACK my order") p ∧
        ∀ p2 ∈ parseQAPairs (splitNl "Q: Can I track my order\nA: Yes you can."),
          scoreQA (lowerStr "Can I TRACK my order") p2
            ≤ scoreQA (lowerStr "Can I TRACK my order") p) :=
  ⟨⟨by decide, by decide⟩,
    C2_qa_exact_match.1 (splitNl "Q: Can I track my order\nA: Yes you can.")
      "can i track my order" "Yes you can." "Can I TRACK my order" (by decide) (by decide)⟩

/-! ### Lemmas about the section fallback scan -/

/-- Once the running best count has reached 3 the step function can no longer
change the recorded winner. -/
theorem sectionStep_frozen (msgWords : List String) (st : SecSt) (line : String)
    (h3 : 3 ≤ st.bestCount) :
    (sectionStep msgWords st line).bestSection = st.bestSection ∧
    (sectionStep msgWords st line).bestCount = st.bestCount := by
  unfold sectionStep
  split
  · have hlt : ¬ (st.current ≠ "" ∧ st.bestCount < 3) := by
      rintro ⟨_, hlt⟩
      omega
    rw [if_neg hlt]
    exact ⟨rfl, rfl⟩
  · split
    · exact ⟨rfl, rfl⟩
    · exact ⟨rfl, rfl⟩

/-- Folding from any state whose best count has reached 3 leaves the winner
untouched. -/
theorem sectionFold_frozen (msgWords : List String) :
    ∀ (rest : List String) (st : SecSt), 3 ≤ st.bestCount →
      (sectionFold msgWords st rest).bestSection = st.bestSection ∧
      (sectionFold msgWords st rest).bestCount = st.bestCount
  | [], st, _ => ⟨rfl, rfl⟩
  | l :: rest, st, h3 => by
    have hstep := sectionStep_frozen msgWords st l h3
    have hrec := sectionFold_frozen msgWords rest (sectionStep msgWords st l)
      (by rw [hstep.2]; exact h3)
    have hunf : sectionFold msgWords st (l :: rest)
        = sectionFold msgWords (sectionStep msgWords st l) rest := rfl
    rw [hunf]
    exact ⟨hrec.1.trans hstep.1, hrec.2.trans hstep.2⟩

/-- Scoring a pending section that contains at least 3 message words at a
header line drives the best count to at least 3. -/
theorem sectionStep_reaches_3 (msgWords : List String) (st : SecSt) (line : String)
    (hhdr : isSecHeader line = true) (hcur : st.current ≠ "")
    (hcount : 3 ≤ countWordsIn msgWords st.current) :
    3 ≤ (sectionStep msgWords st line).bestCount := by
  unfold sectionStep
  rw [if_pos hhdr]
  by_cases hb : st.bestCount < 3
  · rw [if_pos ⟨hcur, hb⟩]
    have hlt : st.bestCount < countWordsIn msgWords st.current := by omega
    rw [if_pos hlt]
    exact hcount
  · rw [if_neg (by rintro ⟨_, h⟩; exact hb h)]
    show 3 ≤ st.bestCount
    omega

/-- The section fold distributes over list append. -/
theorem sectionFold_append (msgWords : List String) :
    ∀ (l1 l2 : List String) (st : SecSt),
      sectionFold msgWords st (l1 ++ l2) = sectionFold msgWords (sectionFold msgWords st l1) l2
  | [], _, _ => rfl
  | l :: rest, l2, st => by
    show sectionFold msgWords (sectionStep msgWords st l) (rest ++ l2) = _
    rw [sectionFold_append msgWords rest l2 (sectionStep msgWords st l)]
    rfl

/-- A step at a non-header line never changes the recorded winner. -/
theorem sectionStep_nonheader (msgWords : List String) (st : SecSt) (line : String)
    (h : isSecHeader line = false) :
    (sectionStep msgWords st line).bestSection = st.bestSection ∧
    (sectionStep msgWords st line).bestCount = st.bestCount := by
  unfold sectionStep
  rw [h]
  simp only [Bool.false_eq_true, if_false]
  split
  · exact ⟨rfl, rfl⟩
  · exact ⟨rfl, rfl⟩

/-- Folding over header-free lines never changes the recorded winner. -/
theorem sectionFold_nonheader (msgWords : List String) :
    ∀ (rest : List String) (st : SecSt), (∀ l ∈ rest, isSecHeader l = false) →
      (sectionFold msgWords st rest).bestSection = st.bestSection ∧
      (sectionFold msgWords st rest).bestCount = st.bestCount
  | [], st, _ => ⟨rfl, rfl⟩
  | l :: rest, st, h => by
    have hstep := sectionStep_nonheader msgWords st l (h l (List.mem_cons_self l rest))
    have hrec := sectionFold_nonheader msgWords rest (sectionStep msgWords st l)
      (fun l2 hl2 => h l2 (List.mem_cons_of_mem l hl2))
    have hunf : sectionFold msgWords st (l :: rest)
        = sectionFold msgWords (sectionStep msgWords st l) rest := rfl
    rw [hunf]
    exact ⟨hrec.1.trans hstep.1, hrec.2.trans hstep.2⟩

/-- C7.  Section fallback cutoff quirk: sections are scanned in document
order, and once the running best match count has reached 3 — in particular as
soon as a pending section containing at least 3 query words is scored at a
header line — the recorded winner never changes again, no matter how many
query words later sections contain. -/
theorem C7_section_cutoff :
    (∀ (msgWords : List String) (st : SecSt) (rest : List String),
        3 ≤ st.bestCount →
        (sectionFold msgWords st rest).bestSection = st.bestSection ∧
        (sectionFold msgWords st rest).bestCount = st.bestCount) ∧
    (∀ (msgWords : List String) (st : SecSt) (line : String),
        isSecHeader line = true → st.current ≠ "" →
        3 ≤ countWordsIn msgWords st.current →
        3 ≤ (sectionStep msgWords st line).bestCount) :=
  ⟨fun msgWords st rest h3 => sectionFold_frozen msgWords rest st h3,
   fun msgWords st line hh hc hw => sectionStep_reaches_3 msgWords st line hh hc hw⟩

/-- Witness for C7: an earlier section scoring exactly 3 freezes the winner
although a later section contains all 4 query words. -/
theorem C7_section_cutoff_witness :
    (3 ≤ (SecSt.mk "AAA:\nalpha beta gamma\n" 3 "BBB:\n").bestCount ∧
      (sectionFold ["alpha", "beta", "gamma", "delta"]
          ⟨"AAA:\nalpha beta gamma\n", 3, "BBB:\n"⟩
          ["alpha beta gamma delta", "CCC:"]).bestSection = "AAA:\nalpha beta gamma\n" ∧
      (sectionFold ["alpha", "beta", "gamma", "delta"]
          ⟨"AAA:\nalpha beta gamma\n", 3, "BBB:\n"⟩
          ["alpha beta gamma delta", "CCC:"]).bestCount = 3) ∧
    (isSecHeader "BBB:" = true ∧
      3 ≤ countWordsIn ["alpha", "beta", "gamma", "delta"] "AAA:\nalpha beta gamma\n" ∧
      3 ≤ (sectionStep ["alpha", "beta", "gamma", "delta"]
          ⟨"", 0, "AAA:\nalpha beta gamma\n"⟩ "BBB:").bestCount) :=
  ⟨⟨by decide,
    C7_section_cutoff.1 ["alpha", "beta", "gamma", "delta"]
      ⟨"AAA:\nalpha beta gamma\n", 3, "BBB:\n"⟩
      ["alpha beta gamma delta", "CCC:"] (by decide)⟩,
   ⟨by decide, by decide,
    C7_section_cutoff.2 ["alpha", "beta", "gamma", "delta"]
      ⟨"", 0, "AAA:\nalpha beta gamma\n"⟩ "BBB:" (by decide) (by decide) (by decide)⟩⟩

/-- C10.  Final section never scored: a section is scored only when a
subsequent header line is reached, so folding over the header-free tail after
the last header cannot change the recorded winner — the text after the last
header line can never be selected by the section fallback. -/
theorem C10_final_section_never_scored :
    (∀ (msgWords : List String) (st : SecSt) (rest : List String),
        (∀ l ∈ rest, isSecHeader l = false) →
        (sectionFold msgWords st rest).bestSection = st.bestSection ∧
        (sectionFold msgWords st rest).bestCount = st.bestCount) ∧
    (∀ (msgWords : List String) (pre tail : List String),
        (∀ l ∈ tail, isSecHeader l = false) →
        (sectionFold msgWords ⟨"", 0, ""⟩ (pre ++ tail)).bestSection
            = (sectionFold msgWords ⟨"", 0, ""⟩ pre).bestSection ∧
        (sectionFold msgWords ⟨"", 0, ""⟩ (pre ++ tail)).bestCount
            = (sectionFold msgWords ⟨"", 0, ""⟩ pre).bestCount) := by
  constructor
  · exact fun msgWords st rest h => sectionFold_nonheader msgWords rest st h
  · intro msgWords pre tail h
    rw [sectionFold_append msgWords pre tail]
    exact sectionFold_nonheader msgWords tail (sectionFold msgWords ⟨"", 0, ""⟩ pre) h

/-- Witness for C10: the trailing section after the last header contains all
four query words yet the winner of the scan is unchanged. -/
theorem C10_final_section_never_scored_witness :
    ((∀ l ∈ ["alpha beta gamma delta"], isSecHeader l = false) ∧
      (sectionFold ["alpha", "beta", "gamma", "delta"] ⟨"", 0, ""⟩
          (["AAA:", "x", "BBB:"] ++ ["alpha beta gamma delta"])).bestSection
        = (sectionFold ["alpha", "beta", "gamma", "delta"] ⟨"", 0, ""⟩
          ["AAA:", "x", "BBB:"]).bestSection ∧
      (sectionFold ["alpha", "beta", "gamma", "delta"] ⟨"", 0, ""⟩
          (["AAA:", "x", "BBB:"] ++ ["alpha beta gamma delta"])).bestCount
        = (sectionFold ["alpha", "beta", "gamma", "delta"] ⟨"", 0, ""⟩
          ["AAA:", "x", "BBB:"]).bestCount) :=
  ⟨by decide,
   C10_final_section_never_scored.2 ["alpha", "beta", "gamma", "delta"]
     ["AAA:", "x", "BBB:"] ["alpha beta gamma delta"] (by decide)⟩

/-! ### Cache theorems (C3, C4) -/

/-- Shared lemma: a cache entry holding a non-empty text with a non-zero
timestamp within the TTL is served as-is, without invoking the fetcher. -/
theorem fresh_entry_get (s : String) (t now : Int) (fetch : FetchOutcome)
    (fb : Option String) (hs : s ≠ "") (ht : t ≠ 0)
    (htime : now - t < CACHE_DURATION) :
    getWarrantyWithCache now fetch fb ⟨some s, some t⟩
      = ⟨some s, ⟨some s, some t⟩, false⟩ := by
  have hfresh : cacheFresh ⟨some s, some t⟩ now = true := by
    unfold cacheFresh
    simp only [Bool.and_eq_true, decide_eq_true_eq, ne_eq]
    exact ⟨⟨hs, ht⟩, htime⟩
  unfold getWarrantyWithCache
  rw [if_pos hfresh]

/-- C3 counterexample: a successful store of the empty string at time 5 is
not treated as a fresh entry — a `get` one millisecond later (well within the
TTL) invokes the live fetcher and returns the fetched text instead of the
byte-identical cached text, because JavaScript truthiness discards an empty
cached string. -/
theorem C3_cache_freshness_cex :
    ((6:Int) - 5 < CACHE_DURATION) ∧
    getWarrantyWithCache 6 (.success "LIVE") none ⟨some "", some 5⟩
      = ⟨some "LIVE", ⟨some "LIVE", some 6⟩, true⟩ ∧
    cacheFresh ⟨some "", some 5⟩ 6 = false := by
  refine ⟨by decide, ?_, by decide⟩
  decide

/-- C3 amended: provided the stored text is non-empty and the store time is
non-zero, every `get` within the TTL returns the byte-identical cached text,
leaves the cache unchanged, and never invokes the live fetcher; and an entry
is fresh exactly when its data is a non-empty string, its timestamp is a
non-zero time `t`, and `now - t < TTL`. -/
theorem C3_cache_freshness_amended :
    (∀ (s : String) (t now : Int) (fetch : FetchOutcome) (fb : Option String),
        s ≠ "" → t ≠ 0 → now - t < CACHE_DURATION →
        getWarrantyWithCache now fetch fb ⟨some s, some t⟩
          = ⟨some s, ⟨some s, some t⟩, false⟩) ∧
    (∀ (c : WCache) (now : Int),
        cacheFresh c now = true ↔
        ∃ d t, c.data = some d ∧ c.timestamp = some t ∧ d ≠ "" ∧ t ≠ 0 ∧
          now - t < CACHE_DURATION) := by
  constructor
  · intro s t now fetch fb hs ht htime
    exact fresh_entry_get s t now fetch fb hs ht htime
  · intro c now
    unfold cacheFresh
    cases c with
    | mk d ts =>
      cases d with
      | none => simp
      | some d0 =>
        cases ts with
        | none => simp
        | some t0 =>
          simp only [Bool.and_eq_true, decide_eq_true_eq, ne_eq]
          constructor
          · rintro ⟨⟨h1, h2⟩, h3⟩
            exact ⟨d0, t0, rfl, rfl, h1, h2, h3⟩
          · rintro ⟨d1, t1, hd, ht, h1, h2, h3⟩
            injection hd with hd
            injection ht with ht
            subst hd
            subst ht
            exact ⟨⟨h1, h2⟩, h3⟩

/-- Witness for the amended C3 at a concrete non-degenerate entry. -/
theorem C3_cache_freshness_amended_witness :
    ("W" ≠ "" ∧ (1:Int) ≠ 0 ∧ (2:Int) - 1 < CACHE_DURATION) ∧
    getWarrantyWithCache 2 .failure none ⟨some "W", some 1⟩
      = ⟨some "W", ⟨some "W", some 1⟩, false⟩ :=
  ⟨⟨by decide, by decide, by decide⟩,
   C3_cache_freshness_amended.1 "W" 1 2 .failure none (by decide) (by decide) (by decide)⟩

/-- C4 counterexample: with the live fetch failing and an existing but empty
fallback file, the first `get` stores the empty text; the next `get` within
the TTL then re-attempts the live fetch (the stored empty string is falsy and
the cache is treated as absent), contradicting the claimed
no-refetch-within-TTL behaviour. -/
theorem C4_cache_fallback_cex :
    getWarrantyWithCache 5 .failure (some "") ⟨none, none⟩
      = ⟨some "", ⟨some "", some 5⟩, true⟩ ∧
    ((6:Int) - 5 < CACHE_DURATION) ∧
    (getWarrantyWithCache 6 .failure (some "") ⟨some "", some 5⟩).fetchAttempted = true := by
  refine ⟨by decide, by decide, ?_⟩
  decide

/-- C4 amended: on a cache miss, `get` propagates the error exactly when both
the live fetch fails and the fallback file is unavailable; when the fetch
fails but the file exists, `get` returns the file content and stores it at
the current time; and provided that content is non-empty and the time
non-zero, every subsequent `get` within the TTL returns the same content
without error and without re-attempting the fetch. -/
theorem C4_cache_fallback_amended :
    (∀ (now : Int) (fetch : FetchOutcome) (fb : Option String) (c : WCache),
        cacheFresh c now = false →
        ((getWarrantyWithCache now fetch fb c).result = none ↔
          fetch = .failure ∧ fb = none)) ∧
    (∀ (now : Int) (f : String) (c : WCache),
        cacheFresh c now = false →
        getWarrantyWithCache now .failure (some f) c
          = ⟨some f, ⟨some f, some now⟩, true⟩) ∧
    (∀ (now later : Int) (f : String) (fetch : FetchOutcome) (fb : Option String),
        f ≠ "" → now ≠ 0 → later - now < CACHE_DURATION →
        getWarrantyWithCache later fetch fb ⟨some f, some now⟩
          = ⟨some f, ⟨some f, some now⟩, false⟩) := by
  refine ⟨?_, ?_, ?_⟩
  · intro now fetch fb c hmiss
    unfold getWarrantyWithCache
    rw [hmiss]
    simp only [Bool.false_eq_true, if_false]
    cases fetch with
    | success t => simp
    | failure =>
      cases fb with
      | some f => simp
      | none => simp
  · intro now f c hmiss
    unfold getWarrantyWithCache
    rw [hmiss]
    simp
  · intro now later f fetch fb hf hnow htime
    exact fresh_entry_get f now later fetch fb hf hnow htime

/-- Witness for the amended C4: miss, failing fetch, present non-empty file,
then a second call within the TTL that does not fetch. -/
theorem C4_cache_fallback_amended_witness :
    (cacheFresh ⟨none, none⟩ 5 = false ∧
      getWarrantyWithCache 5 .failure (some "FILE") ⟨none, none⟩
        = ⟨some "FILE", ⟨some "FILE", some 5⟩, true⟩) ∧
    (((getWarrantyWithCache 5 .failure none ⟨none, none⟩).result = none) ↔
        (FetchOutcome.failure = .failure ∧ (none : Option String) = none)) ∧
    ("FILE" ≠ "" ∧ (5:Int) ≠ 0 ∧ (6:Int) - 5 < CACHE_DURATION ∧
      getWarrantyWithCache 6 .failure (some "FILE") ⟨some "FILE", some 5⟩
        = ⟨some "FILE", ⟨some "FILE", some 5⟩, false⟩) :=
  ⟨⟨by decide, C4_cache_fallback_amended.2.1 5 "FILE" ⟨none, none⟩ (by decide)⟩,
   C4_cache_fallback_amended.1 5 .failure none ⟨none, none⟩ (by decide),
   ⟨by decide, by decide, by decide,
    C4_cache_fallback_amended.2.2 5 6 "FILE" .failure (some "FILE")
      (by decide) (by decide) (by decide)⟩⟩

/-! ### Hugging Face retry theorems (C9) -/

/-- C9 counterexample: two consecutive warming-up responses are both
retried — three requests are issued in total, not the claimed single
re-attempt — and a trace of only warming-up responses never completes within
its window, for any finite window. -/
theorem C9_single_retry_cex :
    hfRun "m" [.warming, .warming, .good "x"] = some "x" ∧
    hfAttempts [.warming, .warming, .good "x"] = 3 ∧
    hfRun "m" (List.replicate 3 .warming) = none ∧
    hfAttempts (List.replicate 3 .warming) = 3 := by
  refine ⟨rfl, rfl, rfl, rfl⟩

/-- C9 amended: every warming-up (503 with `estimated_time`) response
triggers a further timed wait and recursive retry with no retry cap: the run
completes within a response window exactly when the window contains a
non-warming response, and the number of requests issued is one more than the
number of leading warming responses (capped by the window length). -/
theorem C9_single_retry_amended :
    (∀ (mock : String) (rs : List HFResp),
        hfRun mock rs = none ↔ ∀ r ∈ rs, r = HFResp.warming) ∧
    (∀ (rs : List HFResp), hfAttempts rs = min rs.length (leadWarm rs + 1)) := by
  constructor
  · intro mock rs
    induction rs with
    | nil => simp [hfRun]
    | cons r rest ih =>
      cases r with
      | warming =>
        simp only [hfRun]
        rw [ih]
        constructor
        · intro h r2 hr2
          rcases List.mem_cons.1 hr2 with rfl | hmem
          · rfl
          · exact h r2 hmem
        · intro h r2 hr2
          exact h r2 (List.mem_cons_of_mem _ hr2)
      | failed =>
        simp [hfRun]
      | poor =>
        simp [hfRun]
      | good t =>
        simp [hfRun]
  · intro rs
    induction rs with
    | nil => rfl
    | cons r rest ih =>
      cases r with
      | warming =>
        simp only [hfAttempts, leadWarm, List.length_cons]
        omega
      | failed => simp [hfAttempts, leadWarm]
      | poor => simp [hfAttempts, leadWarm]
      | good t => simp [hfAttempts, leadWarm]

/-! ### Mock responder theorems (C5, C6) -/

/-- C5 counterexample: the message `bye i want to cancel my order` matches
the goodbye pattern, yet with a returns corpus present it is answered by the
returns branch — which runs first and reads the corpus — so the goodbye
canned intent neither has priority over topic routing nor bypasses the
corpus fetch. -/
theorem C5_canned_priority_cex :
    goodbyePat (jsTrim (lowerStr "bye i want to cancel my order")) = true ∧
    mockResponse "bye i want to cancel my order"
        (fun fn => if fn = "returns.txt" then some "x" else none)
      = ⟨returnsFallbackReply, ["returns"]⟩ ∧
    returnsFallbackReply ≠ goodbyeReply := by
  refine ⟨by decide, ?_, by decide⟩
  decide

/-- C5 amended: only the greeting and how-are-you canned intents are detected
before all topic routing (each returning its immutable reply with no corpus
read); help, thanks and goodbye are checked only after the
returns/shipping/payments/orders topic branches, so a message matching an
earlier topic pattern with its corpus present gets the topic reply instead.
The query `bye` matches none of the earlier branches and still yields the
fixed goodbye reply with no corpus fetch. -/
theorem C5_canned_priority_amended :
    (∀ (msg : String) (fs : String → Option String),
        greetingPat (jsTrim (lowerStr msg)) = true →
        mockResponse msg fs = ⟨greetingReply, []⟩) ∧
    (∀ (msg : String) (fs : String → Option String),
        greetingPat (jsTrim (lowerStr msg)) = false →
        howAreYouPat (jsTrim (lowerStr msg)) = true →
        mockResponse msg fs = ⟨howAreYouReply, []⟩) ∧
    (∀ fs : String → Option String, mockResponse "bye" fs = ⟨goodbyeReply, []⟩) := by
  refine ⟨?_, ?_, ?_⟩
  · intro msg fs h
    unfold mockResponse
    simp [h]
  · intro msg fs hg hh
    unfold mockResponse
    simp [hg, hh]
  · intro fs
    rfl

/-- Witness for the amended C5: a greeting, a how-are-you message, and the
plain goodbye query, each over an arbitrary concrete file store. -/
theorem C5_canned_priority_amended_witness :
    (greetingPat (jsTrim (lowerStr "hello there")) = true ∧
      mockResponse "hello there" (fun _ => some "corpus") = ⟨greetingReply, []⟩) ∧
    (greetingPat (jsTrim (lowerStr "and how are you?")) = false ∧
      howAreYouPat (jsTrim (lowerStr "and how are you?")) = true ∧
      mockResponse "and how are you?" (fun _ => some "corpus") = ⟨howAreYouReply, []⟩) ∧
    mockResponse "bye" (fun _ => some "corpus") = ⟨goodbyeReply, []⟩ :=
  ⟨⟨by decide, C5_canned_priority_amended.1 "hello there" (fun _ => some "corpus") (by decide)⟩,
   ⟨by decide, by decide,
    C5_canned_priority_amended.2.1 "and how are you?" (fun _ => some "corpus")
      (by decide) (by decide)⟩,
   C5_canned_priority_amended.2.2 (fun _ => some "corpus")⟩

theorem strData_append (s t : String) : (s ++ t).data = s.data ++ t.data := by
  cases s
  cases t
  rfl

theorem bodyStep_inSection (st : PSt) (raw : String) (rest : List String) :
    (bodyStep st raw rest).inSection = st.inSection ∧
    (bodyStep st raw rest).sectionHdr = st.sectionHdr := by
  unfold bodyStep
  dsimp only
  cases h1 : strContainsCI (jsTrim raw) "- warranty period:" <;>
    cases h2 : strContainsCI (jsTrim raw) "- warranty service offered:" <;>
      cases h3 : strContainsCI (jsTrim raw) "- repair services available:" <;>
        cases hpd : periodDigits (jsTrim raw) <;>
          simp [h1, h2, h3, hpd]

theorem bodyStep_period (st : PSt) (raw : String) (rest : List String) :
    (bodyStep st raw rest).period =
      (if strContainsCI (jsTrim raw) "- warranty period:" then
        match periodDigits (jsTrim raw) with
        | some d => some (d ++ " Months")
        | none => st.period
      else st.period) := by
  unfold bodyStep
  dsimp only
  cases h1 : strContainsCI (jsTrim raw) "- warranty period:" <;>
    cases h2 : strContainsCI (jsTrim raw) "- warranty service offered:" <;>
      cases h3 : strContainsCI (jsTrim raw) "- repair services available:" <;>
        cases hpd : periodDigits (jsTrim raw) <;>
          simp [h1, h2, h3, hpd]

theorem bodyAccum_inSection :
    ∀ (body post : List String) (st : PSt),
      (bodyAccum st body post).inSection = st.inSection ∧
      (bodyAccum st body post).sectionHdr = st.sectionHdr
  | [], _, st => ⟨rfl, rfl⟩
  | raw :: body, post, st => by
    have hstep := bodyStep_inSection st raw (body ++ post)
    have hrec := bodyAccum_inSection body post (bodyStep st raw (body ++ post))
    have hunf : bodyAccum st (raw :: body) post
        = bodyAccum (bodyStep st raw (body ++ post)) body post := rfl
    rw [hunf]
    exact ⟨hrec.1.trans hstep.1, hrec.2.trans hstep.2⟩

theorem bodyAccum_period :
    ∀ (body post : List String) (st : PSt),
      (bodyAccum st body post).period = periodFold st.period body
  | [], _, st => rfl
  | raw :: body, post, st => by
    have hunf : bodyAccum st (raw :: body) post
        = bodyAccum (bodyStep st raw (body ++ post)) body post := rfl
    rw [hunf, bodyAccum_period body post (bodyStep st raw (body ++ post)),
      bodyStep_period st raw (body ++ post)]
    rfl

/-- Scanning lines that never enter the product section from the initial
state is a no-op. -/
theorem productScan_skip (p : String) :
    ∀ (pre rest : List String), (∀ l ∈ pre, enterCond p l = false) →
      productScan p pInit (pre ++ rest) = productScan p pInit rest
  | [], _, _ => rfl
  | l :: pre, rest, h => by
    have hl := h l (List.mem_cons_self l pre)
    have hrec := productScan_skip p pre rest
      (fun l2 hl2 => h l2 (List.mem_cons_of_mem l hl2))
    have hps : pInit.inSection = false := rfl
    by_cases hA : (isCapsHeader (jsTrim l) && !(strContains (jsTrim l) "===")) = true
    · have hm : sectionNameMatch p (lowerStr (removeFirstColon (jsTrim l))) = false := by
        simp only [enterCond] at hl
        rw [hA, Bool.true_and] at hl
        exact hl
      show productScan p pInit (l :: (pre ++ rest)) = _
      simp only [productScan, hA, if_true, hm, Bool.false_eq_true, if_false, hps,
        Bool.false_and]
      exact hrec
    · show productScan p pInit (l :: (pre ++ rest)) = _
      simp only [productScan, hA, Bool.false_eq_true, if_false, hps]
      exact hrec

/-- Entering the product section at a matching header line. -/
theorem productScan_enter (p : String) (st : PSt) (hdr : String) (rest : List String)
    (h : enterCond p hdr = true) :
    productScan p st (hdr :: rest)
      = productScan p { st with inSection := true, sectionHdr := jsTrim hdr } rest := by
  simp only [enterCond] at h
  rw [Bool.and_eq_true] at h
  obtain ⟨h1, h2⟩ := h
  simp only [productScan, h1, if_true, h2]

/-- Scanning the section body is the pure body fold. -/
theorem productScan_body (p : String) :
    ∀ (body post : List String) (st : PSt), st.inSection = true →
      (∀ l ∈ body, isCapsHeader (jsTrim l) = false ∧ strStarts (jsTrim l) "===" = false) →
      productScan p st (body ++ post) = productScan p (bodyAccum st body post) post
  | [], _, _, _, _ => rfl
  | l :: body, post, st, hin, h => by
    have hl := h l (List.mem_cons_self l body)
    have hA : (isCapsHeader (jsTrim l) && !(strContains (jsTrim l) "===")) = false := by
      rw [hl.1]
      rfl
    have hbrk : (strStarts (jsTrim l) "===" ||
        (isCapsHeader (jsTrim l) && !(strContains (jsTrim l) st.sectionHdr))) = false := by
      rw [hl.2, hl.1]
      rfl
    have hstep := bodyStep_inSection st l (body ++ post)
    have hrec := productScan_body p body post (bodyStep st l (body ++ post))
      (hstep.1.trans hin) (fun l2 hl2 => h l2 (List.mem_cons_of_mem l hl2))
    show productScan p st (l :: (body ++ post)) = _
    simp only [productScan, hA, Bool.false_eq_true, if_false, hin, if_true, hbrk]
    exact hrec

/-- The scan stops at a non-matching header line while inside the section. -/
theorem productScan_stop (p : String) (st : PSt) (post : List String)
    (hin : st.inSection = true)
    (hstop : post = [] ∨ ∃ h2 t2, post = h2 :: t2 ∧ isCapsHeader (jsTrim h2) = true ∧
      strContains (jsTrim h2) "===" = false ∧
      sectionNameMatch p (lowerStr (removeFirstColon (jsTrim h2))) = false) :
    productScan p st post = st := by
  rcases hstop with rfl | ⟨h2, t2, rfl, hc, hnc, hm⟩
  · rfl
  · have hA : (isCapsHeader (jsTrim h2) && !(strContains (jsTrim h2) "===")) = true := by
      rw [hc, hnc]
      rfl
    have hb : (st.inSection && isCapsHeader (jsTrim h2)) = true := by
      rw [hin, hc]
      rfl
    simp only [productScan, hA, if_true, hm, Bool.false_eq_true, if_false, hb]

/-- A successful product stage short-circuits the whole extraction chain. -/
theorem getAnswerFromData_product (userMessage dataContent r : String)
    (hne : dataContent ≠ "")
    (h : productStage (lowerStr userMessage) (splitNl dataContent) = some r) :
    getAnswerFromData userMessage dataContent = some r := by
  unfold getAnswerFromData
  rw [if_neg hne]
  dsimp only
  rw [h]

/-- The composed reply starts with — hence contains — the period text. -/
theorem productResponseText_contains (p : String) (svc : Option String) (reps : List String) :
    strContains (productResponseText p svc reps) ("Warranty period: " ++ p) = true := by
  apply strContains_of_strStarts
  unfold productResponseText strStarts
  rw [prefixOfB_iff]
  refine ⟨((match svc with | some s => if s = "" then "" else ". " ++ s | none => "")
    ++ (if reps.isEmpty then ""
        else ". Repair services available: " ++ joinWith ", " reps ++ ".")).data, ?_⟩
  simp only [strData_append, List.append_assoc]

/-- C1 amended.  Product Matcher postcondition: for a query matching a known
product alias and a corpus whose matching product section carries its period
on a bulleted `- Warranty period: <N> Months` line (the code requires the
bulleted label), the extraction returns the composed reply, which contains
`Warranty period: <N> Months` with exactly the period of that section; the
tablet example composes the full period/service/repair-list reply. -/
theorem C1_product_matcher :
    (∀ (userMessage dataContent : String) (pre body post : List String)
        (hdr p periodStr : String),
        matchProduct (lowerStr userMessage) = some p →
        dataContent ≠ "" →
        splitNl dataContent = pre ++ hdr :: (body ++ post) →
        (∀ l ∈ pre, enterCond p l = false) →
        enterCond p hdr = true →
        (∀ l ∈ body, isCapsHeader (jsTrim l) = false ∧ strStarts (jsTrim l) "===" = false) →
        (post = [] ∨ ∃ h2 t2, post = h2 :: t2 ∧ isCapsHeader (jsTrim h2) = true ∧
          strContains (jsTrim h2) "===" = false ∧
          sectionNameMatch p (lowerStr (removeFirstColon (jsTrim h2))) = false) →
        periodOfLines body = some periodStr →
        getAnswerFromData userMessage dataContent
          = some (productResponseText periodStr
              (bodyAccum ⟨true, jsTrim hdr, none, none, []⟩ body post).service
              (bodyAccum ⟨true, jsTrim hdr, none, none, []⟩ body post).repairs) ∧
        strContains
          (productResponseText periodStr
            (bodyAccum ⟨true, jsTrim hdr, none, none, []⟩ body post).service
            (bodyAccum ⟨true, jsTrim hdr, none, none, []⟩ body post).repairs)
          ("Warranty period: " ++ periodStr) = true) ∧
    getAnswerFromData "What is tablet warranty period?"
        "TABLET:\n- Warranty period: 24 Months\n- Warranty service offered: Our Samsung Authorised Service Partners offer both In and Out of warranty repairs\n- Repair services available:\n- In-store repair\n- Pick up repair\n- Doorstep repair"
      = some "Warranty period: 24 Months. Our Samsung Authorised Service Partners offer both In and Out of warranty repairs. Repair services available: In-store repair, Pick up repair, Doorstep repair." := by
  constructor
  · intro userMessage dataContent pre body post hdr p periodStr hp hne hsplit hpre hhdr hbody
      hpost hperiod
    have hst1 : ({ pInit with inSection := true, sectionHdr := jsTrim hdr } : PSt)
        = ⟨true, jsTrim hdr, none, none, []⟩ := rfl
    have hscan : productScan p pInit (splitNl dataContent)
        = bodyAccum ⟨true, jsTrim hdr, none, none, []⟩ body post := by
      rw [hsplit, productScan_skip p pre (hdr :: (body ++ post)) hpre,
        productScan_enter p pInit hdr (body ++ post) hhdr, hst1,
        productScan_body p body post ⟨true, jsTrim hdr, none, none, []⟩ rfl hbody]
      refine productScan_stop p _ post ?_ hpost
      exact (bodyAccum_inSection body post ⟨true, jsTrim hdr, none, none, []⟩).1
    have hpd : (bodyAccum ⟨true, jsTrim hdr, none, none, []⟩ body post).period
        = some periodStr := by
      rw [bodyAccum_period body post ⟨true, jsTrim hdr, none, none, []⟩]
      exact hperiod
    have hstage : productStage (lowerStr userMessage) (splitNl dataContent)
        = some (productResponseText periodStr
            (bodyAccum ⟨true, jsTrim hdr, none, none, []⟩ body post).service
            (bodyAccum ⟨true, jsTrim hdr, none, none, []⟩ body post).repairs) := by
      unfold productStage
      rw [hp]
      show buildProductResponse (productScan p pInit (splitNl dataContent)) = _
      rw [hscan]
      unfold buildProductResponse
      rw [hpd]
    constructor
    · exact getAnswerFromData_product userMessage dataContent _ hne hstage
    · exact productResponseText_contains periodStr _ _
  · decide

/-- Witness for the amended C1 at the tablet example corpus. -/
theorem C1_product_matcher_witness :
    getAnswerFromData "What is tablet warranty period?"
        "TABLET:\n- Warranty period: 24 Months\n- Warranty service offered: Our Samsung Authorised Service Partners offer both In and Out of warranty repairs\n- Repair services available:\n- In-store repair\n- Pick up repair\n- Doorstep repair"
      = some (productResponseText "24 Months"
          (bodyAccum ⟨true, jsTrim "TABLET:", none, none, []⟩
            ["- Warranty period: 24 Months",
             "- Warranty service offered: Our Samsung Authorised Service Partners offer both In and Out of warranty repairs",
             "- Repair services available:",
             "- In-store repair", "- Pick up repair", "- Doorstep repair"] []).service
          (bodyAccum ⟨true, jsTrim "TABLET:", none, none, []⟩
            ["- Warranty period: 24 Months",
             "- Warranty service offered: Our Samsung Authorised Service Partners offer both In and Out of warranty repairs",
             "- Repair services available:",
             "- In-store repair", "- Pick up repair", "- Doorstep repair"] []).repairs) ∧
    strContains
        (productResponseText "24 Months"
          (bodyAccum ⟨true, jsTrim "TABLET:", none, none, []⟩
            ["- Warranty period: 24 Months",
             "- Warranty service offered: Our Samsung Authorised Service Partners offer both In and Out of warranty repairs",
             "- Repair services available:",
             "- In-store repair", "- Pick up repair", "- Doorstep repair"] []).service
          (bodyAccum ⟨true, jsTrim "TABLET:", none, none, []⟩
            ["- Warranty period: 24 Months",
             "- Warranty service offered: Our Samsung Authorised Service Partners offer both In and Out of warranty repairs",
             "- Repair services available:",
             "- In-store repair", "- Pick up repair", "- Doorstep repair"] []).repairs)
        ("Warranty period: " ++ "24 Months") = true :=
  C1_product_matcher.1 "What is tablet warranty period?"
    "TABLET:\n- Warranty period: 24 Months\n- Warranty service offered: Our Samsung Authorised Service Partners offer both In and Out of warranty repairs\n- Repair services available:\n- In-store repair\n- Pick up repair\n- Doorstep repair"
    [] ["- Warranty period: 24 Months",
        "- Warranty service offered: Our Samsung Authorised Service Partners offer both In and Out of warranty repairs",
        "- Repair services available:",
        "- In-store repair", "- Pick up repair", "- Doorstep repair"] []
    "TABLET:" "tablet" "24 Months"
    (by decide) (by decide) (by decide) (by decide) (by decide) (by decide)
    (Or.inl rfl) (by decide)

/-! ### Lemmas about the live-fetcher catalog substitution (C8) -/

theorem myGetLast_append : ∀ (u p : List Char), p ≠ [] → (u ++ p).getLast? = p.getLast?
  | [], _, _ => rfl
  | c :: u, p, hp => by
    rw [List.cons_append]
    cases hup : u ++ p with
    | nil => exact absurd (List.append_eq_nil.1 hup).2 hp
    | cons x xs =>
      rw [List.getLast?_cons_cons, ← hup]
      exact myGetLast_append u p hp

theorem mem_of_getLast : ∀ (l : List Char) (c : Char), l.getLast? = some c → c ∈ l
  | [], c, h => by cases h
  | [a], c, h => by
    have : a = c := by
      injection h
    rw [this]
    exact List.mem_singleton_self c
  | a :: b :: l, c, h => by
    rw [List.getLast?_cons_cons] at h
    exact List.mem_cons_of_mem a (mem_of_getLast (b :: l) c h)

/-- Decomposition of an occurrence of `pat` inside `a ++ b`: inside `a`,
inside `b`, or spanning the boundary. -/
theorem infix_append_cases (pat a b : List Char)
    (h : ∃ s t, s ++ pat ++ t = a ++ b) :
    (∃ s t, s ++ pat ++ t = a) ∨ (∃ s t, s ++ pat ++ t = b) ∨
    ∃ p1 p2, pat = p1 ++ p2 ∧ p1 ≠ [] ∧ p2 ≠ [] ∧
      (∃ u, u ++ p1 = a) ∧ (∃ v, p2 ++ v = b) := by
  obtain ⟨s, t, h⟩ := h
  rw [List.append_assoc] at h
  rcases List.append_eq_append_iff.1 h with ⟨a2, ha, hb⟩ | ⟨c2, hs, hd⟩
  · rcases List.append_eq_append_iff.1 hb with ⟨w, hw1, _⟩ | ⟨w, hw1, hw2⟩
    · refine Or.inl ⟨s, w, ?_⟩
      rw [List.append_assoc, ← hw1, ← ha]
    · cases a2 with
      | nil =>
        refine Or.inr (Or.inl ⟨[], t, ?_⟩)
        simp only [List.nil_append] at hw1
        rw [List.nil_append, hw1, ← hw2]
      | cons x xs =>
        cases w with
        | nil =>
          refine Or.inl ⟨s, [], ?_⟩
          rw [List.append_nil] at hw1
          rw [List.append_nil, hw1, ← ha]
        | cons y ys =>
          exact Or.inr (Or.inr ⟨x :: xs, y :: ys, hw1,
            List.cons_ne_nil x xs, List.cons_ne_nil y ys,
            ⟨s, ha.symm⟩, ⟨t, hw2.symm⟩⟩)
  · refine Or.inr (Or.inl ⟨c2, t, ?_⟩)
    rw [List.append_assoc, ← hd]

/-- A newline-free pattern occurring in `a ++ b` with `a` ending in a newline
occurs wholly inside `a` or wholly inside `b`. -/
theorem infix_append_no_nl (pat a b : List Char) (hnl : '\n' ∉ pat)
    (hlast : a.getLast? = some '\n')
    (h : ∃ s t, s ++ pat ++ t = a ++ b) :
    (∃ s t, s ++ pat ++ t = a) ∨ (∃ s t, s ++ pat ++ t = b) := by
  rcases infix_append_cases pat a b h with h1 | h2 | ⟨p1, p2, hpp, hp1, _, ⟨u, hu⟩, _⟩
  · exact Or.inl h1
  · exact Or.inr h2
  · exfalso
    have hlp : p1.getLast? = some '\n' := by
      rw [← hu, myGetLast_append u p1 hp1] at hlast
      exact hlast
    have : '\n' ∈ pat := by
      rw [hpp]
      exact List.mem_append_left p2 (mem_of_getLast p1 '\n' hlp)
    exact hnl this

/-- A nonempty newline-free pattern contained in a concatenation of strings
all ending in a newline is contained in one of them. -/
theorem contains_joinAll_cases (pat : List Char) (hne : pat ≠ []) (hnl : '\n' ∉ pat) :
    ∀ (bs : List String), (∀ b ∈ bs, b.data.getLast? = some '\n') →
      listContains (joinAll bs).data pat = true →
      ∃ b ∈ bs, listContains b.data pat = true
  | [], _, hc => by
    exfalso
    have : pat.isEmpty = true := hc
    exact hne (List.isEmpty_iff.1 this)
  | b :: bs, h, hc => by
    have hdec := (listContains_iff _ pat).1 hc
    have hjoin : (joinAll (b :: bs)).data = b.data ++ (joinAll bs).data :=
      strData_append b (joinAll bs)
    rw [hjoin] at hdec
    rcases infix_append_no_nl pat b.data (joinAll bs).data hnl
        (h b (List.mem_cons_self b bs)) hdec with hin | hin
    · exact ⟨b, List.mem_cons_self b bs, (listContains_iff _ pat).2 hin⟩
    · obtain ⟨b2, hb2, hcb2⟩ := contains_joinAll_cases pat hne hnl bs
        (fun x hx => h x (List.mem_cons_of_mem b hx)) ((listContains_iff _ pat).2 hin)
      exact ⟨b2, List.mem_cons_of_mem b hb2, hcb2⟩

/-- Any member of a string list occurs contiguously in the concatenation. -/
theorem joinAll_decomp : ∀ (bs : List String) (b : String), b ∈ bs →
    ∃ u v, (joinAll bs).data = u ++ b.data ++ v
  | [], b, hmem => absurd hmem (List.not_mem_nil b)
  | b0 :: bs, b, hmem => by
    rcases List.mem_cons.1 hmem with rfl | h2
    · refine ⟨[], (joinAll bs).data, ?_⟩
      show (b ++ joinAll bs).data = [] ++ b.data ++ (joinAll bs).data
      rw [strData_append]
      simp
    · obtain ⟨u, v, hv⟩ := joinAll_decomp bs b h2
      refine ⟨b0.data ++ u, v, ?_⟩
      show (b0 ++ joinAll bs).data = b0.data ++ u ++ b.data ++ v
      rw [strData_append, hv]
      simp [List.append_assoc]

/-- The key-specific marker `pat` occurs in the accumulated header text
exactly when the record for `key` was emitted. -/
theorem contains_marker_iff (nodes : List PNode) (key pat : String)
    (hne : pat.data ≠ []) (hnl : '\n' ∉ pat.data)
    (hprelast : fetchPreamble.data.getLast? = some '\n')
    (hpre : listContains fetchPreamble.data pat.data = false)
    (hblocklast : ∀ e ∈ productWarrantyMap, (blockFor e).data.getLast? = some '\n')
    (hblocks : ∀ e ∈ productWarrantyMap, e.1 ≠ key →
      listContains (blockFor e).data pat.data = false)
    (hkeyblock : ∀ e ∈ productWarrantyMap, e.1 = key →
      listContains (blockFor e).data pat.data = true) :
    strContains (headerText nodes) pat = true ↔ key ∈ emittedKeys nodes := by
  constructor
  · intro hc
    have hdec := (listContains_iff _ pat.data).1 hc
    have hht : (headerText nodes).data
        = fetchPreamble.data
          ++ (joinAll (nodes.filterMap (fun n => (nodeEntry n).map blockFor))).data := by
      unfold headerText
      rw [strData_append]
    rw [hht] at hdec
    rcases infix_append_no_nl pat.data fetchPreamble.data _ hnl hprelast hdec with hin | hin
    · exact absurd ((listContains_iff _ pat.data).2 hin) (by rw [hpre]; exact Bool.false_ne_true)
    · have hblast : ∀ b ∈ nodes.filterMap (fun n => (nodeEntry n).map blockFor),
          b.data.getLast? = some '\n' := by
        intro b hb
        obtain ⟨n, _, hfb⟩ := List.mem_filterMap.1 hb
        obtain ⟨e, hee, hbe⟩ := Option.map_eq_some'.1 hfb
        rw [← hbe]
        exact hblocklast e (List.mem_of_find?_eq_some hee)
      obtain ⟨b, hb, hcb⟩ := contains_joinAll_cases pat.data hne hnl _ hblast
        ((listContains_iff _ pat.data).2 hin)
      obtain ⟨n, hn, hfb⟩ := List.mem_filterMap.1 hb
      obtain ⟨e, hee, hbe⟩ := Option.map_eq_some'.1 hfb
      have hemem : e ∈ productWarrantyMap := List.mem_of_find?_eq_some hee
      by_cases hk : e.1 = key
      · refine List.mem_filterMap.2 ⟨n, hn, ?_⟩
        rw [hee]
        simp [hk]
      · rw [← hbe] at hcb
        exact absurd hcb (by rw [hblocks e hemem hk]; exact Bool.false_ne_true)
  · intro hmem
    obtain ⟨n, hn, hfk⟩ := List.mem_filterMap.1 hmem
    obtain ⟨e, hee, hke⟩ := Option.map_eq_some'.1 hfk
    have hemem : e ∈ productWarrantyMap := List.mem_of_find?_eq_some hee
    have hcb : listContains (blockFor e).data pat.data = true := hkeyblock e hemem hke
    have hbmem : blockFor e ∈ nodes.filterMap (fun n => (nodeEntry n).map blockFor) :=
      List.mem_filterMap.2 ⟨n, hn, by rw [hee]; rfl⟩
    obtain ⟨u, v, hv⟩ := joinAll_decomp _ (blockFor e) hbmem
    obtain ⟨s, t, hst⟩ := (listContains_iff _ pat.data).1 hcb
    refine (listContains_iff _ pat.data).2
      ⟨fetchPreamble.data ++ u ++ s, t ++ v, ?_⟩
    have hht : (headerText nodes).data
        = fetchPreamble.data
          ++ (joinAll (nodes.filterMap (fun n => (nodeEntry n).map blockFor))).data := by
      unfold headerText
      rw [strData_append]
    rw [hht, hv, ← hst]
    simp [List.append_assoc]

/-- C8 amended.  Catalog substitution condition: the Live Source Fetcher
appends its hard-coded canonical catalog exactly when neither a smartphone
record nor a cooker-hood record was recognized from the scanned page — so
zero recognized records still trigger the substitution, but a recognized
record of any other product does not prevent it. -/
theorem C8_catalog_substitution_amended (nodes : List PNode) :
    substituted nodes = true ↔
      ("smartphone" ∉ emittedKeys nodes ∧ "cooker hood" ∉ emittedKeys nodes) := by
  have h1 := contains_marker_iff nodes "smartphone" "SMARTPHONE:"
    (by decide) (by decide) (by decide) (by decide) (by decide) (by decide) (by decide)
  have h2 := contains_marker_iff nodes "cooker hood" "COOKER HOOD:"
    (by decide) (by decide) (by decide) (by decide) (by decide) (by decide) (by decide)
  have hbool : substituted nodes = true ↔
      (strContains (headerText nodes) "SMARTPHONE:" = false ∧
        strContains (headerText nodes) "COOKER HOOD:" = false) := by
    unfold substituted
    rw [Bool.and_eq_true, Bool.not_eq_true', Bool.not_eq_true']
  rw [hbool]
  constructor
  · rintro ⟨ha, hb⟩
    constructor
    · intro hm
      have := h1.2 hm
      rw [ha] at this
      exact Bool.false_ne_true this
    · intro hm
      have := h2.2 hm
      rw [hb] at this
      exact Bool.false_ne_true this
  · rintro ⟨hm1, hm2⟩
    constructor
    · cases hv : strContains (headerText nodes) "SMARTPHONE:"
      · rfl
      · exact absurd (h1.1 hv) hm1
    · cases hv : strContains (headerText nodes) "COOKER HOOD:"
      · rfl
      · exact absurd (h2.1 hv) hm2

/-- C8 counterexample: a page recognizing exactly one structured record — a
tablet — still triggers the hard-coded catalog substitution, refuting the
claimed equivalence with `zero structured records recognized`. -/
theorem C8_catalog_substitution_cex :
    emittedKeys [⟨"tablet", "warranty period", ""⟩] = ["tablet"] ∧
    emittedKeys [⟨"tablet", "warranty period", ""⟩] ≠ [] ∧
    substituted [⟨"tablet", "warranty period", ""⟩] = true := by
  refine ⟨by decide, by decide, ?_⟩
  decide

/-- C1 counterexample: over a corpus whose tablet section carries its period
on a plain `Warranty period: 24 Months` line (no bullet label), the
extraction chain returns nothing at all, although the query matches the
tablet alias and the period is present in the section. -/
theorem C1_product_matcher_cex :
    matchProduct (lowerStr "What is tablet warranty period?") = some "tablet" ∧
    strContains "TABLET:\nWarranty period: 24 Months" "Warranty period: 24 Months" = true ∧
    getAnswerFromData "What is tablet warranty period?"
        "TABLET:\nWarranty period: 24 Months" = none := by
  refine ⟨by decide, by decide, ?_⟩
  decide

end Chatbot
